import Mathlib

/-!
# Verification of the copycat concept-network and strength model

A shallow embedding, in Lean 4, of the core of the `copycat` repository:
the Slipnet (concept network) of `slipnet.py` / `slipnode.py` / `sliplink.py`,
the concept-mapping scoring of `conceptMapping.py`, the workspace-structure
strength contract of `workspace_structure.py` / `group.py` / `formulas.py`,
the randomness primitives of `randomness.py`, and the group-breaking cascade
of `group.py`.

Python floats are modelled as rationals (`ℚ`) for the activation dynamics and
as reals (`ℝ`) where the source raises values to the fractional powers
`0.95` / `0.98`.  Python object references are modelled as indices (`ℕ`) into
explicit state.  Only the attributes that the verified operations read or
write are carried in the records; immutable attributes dropped here (node
names, codelet hint lists) are never consulted by any of the functions below.
-/

namespace Copycat

/-- A directed, immutable link of the Slipnet (`sliplink.py`); `source`,
`destination` and the optional `label` are indices of nodes. -/
structure Sliplink where
  source : ℕ
  destination : ℕ
  label : Option ℕ
  fixed_length : ℚ
deriving DecidableEq

/-- A node of the Slipnet (`slipnode.py`).  `shrunk_link_length` is stored,
as in the Python constructor, rather than derived on the fly.  The per-node
link lists `outgoing_links` and `lateral_slip_links` hold the immutable link
records themselves, mirroring the Python object's attribute lists. -/
structure Slipnode where
  conceptual_depth : ℚ
  intrinsic_link_length : ℚ
  shrunk_link_length : ℚ
  activation : ℚ
  old_activation : Option ℚ
  buffer : ℚ
  clamped : Bool
  outgoing_links : List Sliplink
  lateral_slip_links : List Sliplink
deriving DecidableEq

instance : Inhabited Slipnode :=
  ⟨{ conceptual_depth := 0, intrinsic_link_length := 0, shrunk_link_length := 0,
     activation := 0, old_activation := none, buffer := 0, clamped := false,
     outgoing_links := [], lateral_slip_links := [] }⟩

/-- `Slipnode.__init__`: a fresh node with `shrunk_link_length = 0.4 × length`. -/
def Slipnode.make (depth length : ℚ) : Slipnode :=
  { conceptual_depth := depth, intrinsic_link_length := length,
    shrunk_link_length := length * (2/5),
    activation := 0, old_activation := none, buffer := 0, clamped := false,
    outgoing_links := [], lateral_slip_links := [] }

/-- The Slipnet (`slipnet.py`): the node list, the tick counter and the list
of indices of the a-priori clamped nodes. -/
structure Slipnet where
  slipnodes : List Slipnode
  number_of_updates : ℕ
  initially_clamped_slipnodes : List ℕ
deriving DecidableEq

/-- Look a node up by index (out-of-range reads return the default node;
every verified statement constrains indices to be in range). -/
def getNode (net : Slipnet) (i : ℕ) : Slipnode :=
  net.slipnodes.getD i default

/-- Replace node `i` by `f` applied to it; the identity out of range. -/
def modifyNode (net : Slipnet) (i : ℕ) (f : Slipnode → Slipnode) : Slipnet :=
  match net.slipnodes.get? i with
  | some n => { net with slipnodes := net.slipnodes.set i (f n) }
  | none => net

/-- `Slipnode.fully_active`: activation above `100 − 1e-5`. -/
def Slipnode.fully_active (n : Slipnode) : Prop :=
  100 - (1 / 100000 : ℚ) < n.activation

instance (n : Slipnode) : Decidable n.fully_active :=
  inferInstanceAs (Decidable (_ < _))

/-- `Slipnode.reset`: zero the buffer and the activation. -/
def Slipnode.reset (n : Slipnode) : Slipnode :=
  { n with buffer := 0, activation := 0 }

/-- `Slipnode.clamp_high`: clamp and force activation to 100. -/
def Slipnode.clamp_high (n : Slipnode) : Slipnode :=
  { n with clamped := true, activation := 100 }

/-- `Slipnode.unclamp`. -/
def Slipnode.unclamp (n : Slipnode) : Slipnode :=
  { n with clamped := false }

/-- `Slipnode.update`: remember the old activation and decay the buffer by
`activation × (100 − conceptual_depth) / 100`. -/
def Slipnode.update (n : Slipnode) : Slipnode :=
  { n with old_activation := some n.activation,
           buffer := n.buffer - n.activation * (100 - n.conceptual_depth) / 100 }

/-- `Slipnode.degree_of_association`: `100 −` the intrinsic link length, or
`100 −` the shrunk link length when the node is fully active. -/
def Slipnode.degree_of_association (n : Slipnode) : ℚ :=
  if n.fully_active then 100 - n.shrunk_link_length else 100 - n.intrinsic_link_length

/-- `Sliplink.degree_of_association`: `100 − fixed_length` when the link has a
positive fixed length or no label, otherwise the label node's own degree of
association. -/
def Sliplink.degree_of_association (net : Slipnet) (l : Sliplink) : ℚ :=
  if 0 < l.fixed_length ∨ l.label = none then 100 - l.fixed_length
  else match l.label with
       | some lab => (getNode net lab).degree_of_association
       | none => 100 - l.fixed_length

/-- `Sliplink.intrinsic_degree_of_association`: `100 − fixed_length` when the
fixed length exceeds 1, else `100 −` the label's intrinsic link length when
labelled, else 0. -/
def Sliplink.intrinsic_degree_of_association (net : Slipnet) (l : Sliplink) : ℚ :=
  if 1 < l.fixed_length then 100 - l.fixed_length
  else match l.label with
       | some lab => 100 - (getNode net lab).intrinsic_link_length
       | none => 0

/-- `Sliplink.spread_activation`: add the intrinsic degree of association to
the destination node's buffer. -/
def Sliplink.spread_activation (net : Slipnet) (l : Sliplink) : Slipnet :=
  modifyNode net l.destination
    (fun n => { n with buffer := n.buffer + l.intrinsic_degree_of_association net })

/-- `Slipnode.spread_activation` for the node at index `i`: when that node is
fully active, push activation along each of its outgoing links in order. -/
def Slipnode.spread_activation (net : Slipnet) (i : ℕ) : Slipnet :=
  let n := getNode net i
  if n.fully_active then
    n.outgoing_links.foldl (fun acc l => l.spread_activation acc) net
  else net

/-- `Slipnode.add_buffer`: an unclamped node adds its buffer to its
activation; every node then clamps its activation into `[0, 100]`. -/
def Slipnode.add_buffer (n : Slipnode) : Slipnode :=
  let a := if n.clamped then n.activation else n.activation + n.buffer
  { n with activation := min (max 0 a) 100 }

/-- `randomness.py`'s `Randomness`, modelled as a stream of uniform draws in
`[0, 1)` together with the index of the next draw. -/
structure RState where
  stream : ℕ → ℚ
  k : ℕ

/-- `Randomness.coin_flip`: true with probability `p`; consumes one draw. -/
def RState.coin_flip (r : RState) (p : ℚ) : Bool × RState :=
  (decide (r.stream r.k < p), { r with k := r.k + 1 })

/-- The jump threshold (`slipnode.py`, `jump_threshold()`). -/
def jump_threshold : ℚ := 55

/-- `Slipnode.jump`: a non-clamped node whose activation exceeds the
threshold jumps to 100 with probability `(activation/100)³`. -/
def Slipnode.jump (n : Slipnode) (r : RState) : Slipnode × RState :=
  if n.clamped ∨ n.activation ≤ jump_threshold then (n, r)
  else
    let value := (n.activation / 100) ^ 3
    let br := r.coin_flip value
    (if br.1 then { n with activation := 100 } else n, br.2)

/-- One iteration of the third loop of `Slipnet.update`: `add_buffer`, then
`jump`, then zero the buffer. -/
def integrateNode (n : Slipnode) (r : RState) : Slipnode × RState :=
  let n1 := n.add_buffer
  let nr := n1.jump r
  ({ nr.1 with buffer := 0 }, nr.2)

/-- The bookkeeping at the head of `Slipnet.update`: increment the tick
counter and, exactly on the 50th update, unclamp the a-priori nodes. -/
def tickBookkeeping (net : Slipnet) : Slipnet :=
  let net1 := { net with number_of_updates := net.number_of_updates + 1 }
  if net1.number_of_updates = 50 then
    net1.initially_clamped_slipnodes.foldl (fun acc i => modifyNode acc i Slipnode.unclamp) net1
  else net1

/-- The first loop of `Slipnet.update`: every node decays its buffer. -/
def decayPhase (net : Slipnet) : Slipnet :=
  { net with slipnodes := net.slipnodes.map Slipnode.update }

/-- The second loop of `Slipnet.update`: every node spreads activation. -/
def spreadPhase (net : Slipnet) : Slipnet :=
  (List.range net.slipnodes.length).foldl (fun acc i => Slipnode.spread_activation acc i) net

/-- The third loop of `Slipnet.update`: every node integrates its buffer,
may jump, and zeroes its buffer; the random draws are threaded through in
node order. -/
def integratePhase (net : Slipnet) (r : RState) : Slipnet × RState :=
  (List.range net.slipnodes.length).foldl
    (fun acc i =>
      let nr := integrateNode (getNode acc.1 i) acc.2
      (modifyNode acc.1 i (fun _ => nr.1), nr.2))
    (net, r)

/-- `Slipnet.update`: one tick, exactly as in `slipnet.py` lines 115–133 —
bookkeeping, then the decay loop, then the spread loop, then the
integrate loop. -/
def Slipnet.update (net : Slipnet) (r : RState) : Slipnet × RState :=
  integratePhase (spreadPhase (decayPhase (tickBookkeeping net))) r

/-- `Slipnet.reset`: zero the counter, reset every node, re-clamp the
a-priori nodes. -/
def Slipnet.reset (net : Slipnet) : Slipnet :=
  let net1 := { net with number_of_updates := 0,
                         slipnodes := net.slipnodes.map Slipnode.reset }
  net1.initially_clamped_slipnodes.foldl (fun acc i => modifyNode acc i Slipnode.clamp_high) net1

/-- Iterated ticks: `iterateUpdate n` performs `n` successive calls of
`Slipnet.update`, threading the random stream. -/
def iterateUpdate : ℕ → Slipnet × RState → Slipnet × RState
  | 0, p => p
  | n + 1, p => iterateUpdate n (p.1.update p.2)

/-- The total activation pushed into node `i`'s buffer during the spread
phase: the sum, over every fully active node, of the intrinsic degrees of
association of its outgoing links pointing at `i`. -/
def spreadReceipts (net : Slipnet) (i : ℕ) : ℚ :=
  (net.slipnodes.map
    (fun n =>
      if n.fully_active then
        ((n.outgoing_links.filter (fun l => l.destination = i)).map
          (fun l => l.intrinsic_degree_of_association net)).sum
      else 0)).sum

/-! ## Concept mappings (`conceptMapping.py`)

A `ConceptMapping` holds its two descriptors as node indices; the slipnet it
consults is passed to each scoring function.  The description types and the
mapped objects play no part in `slippability` / `strength` and are omitted. -/

/-- `ConceptMapping.__degreeOfAssociation`: 100 for identical descriptors,
else the degree of association of the first direct lateral slip link from
the initial to the target descriptor, else 0. -/
def ConceptMapping.degreeOfAssociation (net : Slipnet) (initialDescriptor targetDescriptor : ℕ) : ℚ :=
  if initialDescriptor = targetDescriptor then 100
  else
    match (getNode net initialDescriptor).lateral_slip_links.find?
        (fun l => l.destination = targetDescriptor) with
    | some l => l.degree_of_association net
    | none => 0

/-- `ConceptMapping.__conceptualDepth`: the mean of the two descriptors'
conceptual depths. -/
def ConceptMapping.conceptualDepth (net : Slipnet) (initialDescriptor targetDescriptor : ℕ) : ℚ :=
  ((getNode net initialDescriptor).conceptual_depth
    + (getNode net targetDescriptor).conceptual_depth) / 2

/-- `ConceptMapping.slippability`: 100 when the degree of association is
exactly 100, else `association × (1 − depth²)` with the depth normalised
to `[0, 1]`. -/
def ConceptMapping.slippability (net : Slipnet) (initialDescriptor targetDescriptor : ℕ) : ℚ :=
  let association := ConceptMapping.degreeOfAssociation net initialDescriptor targetDescriptor
  if association = 100 then 100
  else
    let depth := ConceptMapping.conceptualDepth net initialDescriptor targetDescriptor / 100
    association * (1 - depth * depth)

/-- `ConceptMapping.strength`: 100 when the degree of association is exactly
100, else `association × (1 + depth²)`. -/
def ConceptMapping.strength (net : Slipnet) (initialDescriptor targetDescriptor : ℕ) : ℚ :=
  let association := ConceptMapping.degreeOfAssociation net initialDescriptor targetDescriptor
  if association = 100 then 100
  else
    let depth := ConceptMapping.conceptualDepth net initialDescriptor targetDescriptor / 100
    association * (1 + depth * depth)

/-! ## Shared numeric formulas (`formulas.py`) -/

/-- `formulas.weighted_average`: fold up `Σ value×weight` and `Σ weight`,
returning 0 when the weights sum to 0.  Generic in the number type so that
the same embedding serves the rational activation model and the real-valued
strength model. -/
def weighted_average {α : Type} [DivisionRing α] [DecidableEq α]
    (values : List (α × α)) : α :=
  let t := values.foldl (fun acc p => (acc.1 + p.1 * p.2, acc.2 + p.2)) ((0 : α), (0 : α))
  if t.2 = 0 then 0 else t.1 / t.2

/-! ## Randomness primitives (`randomness.py`) -/

/-- `randomness.accumulate`: running totals of a list. -/
def accumulate (l : List ℚ) : List ℚ :=
  (l.foldl (fun acc v => (acc.1 + v, acc.2 ++ [acc.1 + v])) ((0 : ℚ), [])).2

/-- The loop of Python's `bisect.bisect_left`, fuel-bounded; the fuel is the
list length at the call sites, which bounds the number of halvings. -/
def bisectLeftLoop (a : List ℚ) (x : ℚ) : ℕ → ℕ → ℕ → ℕ
  | lo, _, 0 => lo
  | lo, hi, fuel + 1 =>
    if lo < hi then
      let mid := (lo + hi) / 2
      if a.getD mid 0 < x then bisectLeftLoop a x (mid + 1) hi fuel
      else bisectLeftLoop a x lo mid fuel
    else lo

/-- `bisect.bisect_left a x`: the leftmost insertion point of `x` in `a`. -/
def bisect_left (a : List ℚ) (x : ℚ) : ℕ :=
  bisectLeftLoop a x 0 a.length a.length

/-- The ways a modelled Python call can fail. -/
inductive PyErr where
  | notImplementedError
  | indexError
  | attributeError
  | unmodelledMethod
deriving DecidableEq

/-- `Randomness.weighted_choice`, with the uniform draw `r ∈ [0, 1)` passed
explicitly: `none` (wrapped in `.ok`) on an empty sequence, otherwise the
element at the cumulative-sum insertion point of `r × total`; a run that
Python would abort with `IndexError` is an `.error`. -/
def weighted_choice {α : Type} (seq : List α) (weights : List ℚ) (r : ℚ) :
    Except PyErr (Option α) :=
  if seq.isEmpty then Except.ok none
  else
    let cum_weights := accumulate weights
    match cum_weights.getLast? with
    | none => Except.error PyErr.indexError
    | some total =>
      match seq.get? (bisect_left cum_weights (r * total)) with
      | some x => Except.ok (some x)
      | none => Except.error PyErr.indexError

/-! ## The workspace-structure strength contract
(`workspace_structure.py`, `group.py`)

A `Group` instance carries both the snake_case strength attributes declared
by `WorkspaceStructure.__init__` and the camelCase `internalStrength` /
`externalStrength` attributes that `group.py`'s own update methods write.
The slipnet lookup `groupCategory.get_related_node(bond_category)
.degree_of_association()` of `group.py` line 168 is carried as the field
`relatedBondAssociation`, and `localSupport()` as `localSupportVal`; the
strength formulas below are functions of those values exactly as in the
source. -/

structure GroupPyState where
  internal_strength : ℝ
  external_strength : ℝ
  total_strength : ℝ
  internalStrength : ℝ
  externalStrength : ℝ
  relatedBondAssociation : ℝ
  numChildren : ℕ
  spansStringB : Bool
  localSupportVal : ℝ

/-- The length factor of `Group.updateInternalStrength` (`group.py`
lines 171–179): 5 / 20 / 60 for 1 / 2 / 3 children, else 90. -/
noncomputable def lengthFactor (length : ℕ) : ℝ :=
  if length = 1 then 5
  else if length = 2 then 20
  else if length = 3 then 60
  else 90

/-- `Group.updateInternalStrength` (`group.py` lines 166–183): the weighted
average of the related bond association (weighted by that association raised
to the 0.98 power) and the length factor (weighted by the complement of that
power), written to the camelCase attribute `internalStrength`. -/
noncomputable def Group.updateInternalStrength (g : GroupPyState) : GroupPyState :=
  let relatedBondAssociation := g.relatedBondAssociation
  let bondWeight := relatedBondAssociation ^ (0.98 : ℝ)
  let lf := lengthFactor g.numChildren
  let lengthWeight := 100 - bondWeight
  { g with internalStrength :=
      weighted_average [(relatedBondAssociation, bondWeight), (lf, lengthWeight)] }

/-- `Group.updateExternalStrength` (`group.py` lines 185–189), written to the
camelCase attribute `externalStrength`. -/
noncomputable def Group.updateExternalStrength (g : GroupPyState) : GroupPyState :=
  { g with externalStrength := if g.spansStringB then 100 else g.localSupportVal }

/-- `WorkspaceStructure.update_total_strength`: the self-weighted blend
`weighted_average [(internal, internal), (external, 100 − internal)]`. -/
noncomputable def WorkspaceStructure.update_total_strength (g : GroupPyState) : GroupPyState :=
  { g with total_strength :=
      weighted_average [(g.internal_strength, g.internal_strength),
                        (g.external_strength, 100 - g.internal_strength)] }

/-- `WorkspaceStructure.update_strength` as run by a concrete structure type
whose subclass supplies `update_internal_strength` / `update_external_strength`
overrides (`fInt` / `fExt`): internal first, then external, then the total. -/
noncomputable def WorkspaceStructure.update_strength_via
    (fInt fExt : GroupPyState → GroupPyState) (g : GroupPyState) : GroupPyState :=
  WorkspaceStructure.update_total_strength (fExt (fInt g))

/-- `WorkspaceStructure.total_weakness`: `100 − total_strength ^ 0.95`. -/
noncomputable def WorkspaceStructure.total_weakness (g : GroupPyState) : ℝ :=
  100 - g.total_strength ^ (0.95 : ℝ)

/-! ## Python attribute resolution for `Group` (`group.py`,
`workspace_object.py`, `workspace_structure.py`)

`MName` enumerates the method names defined by the three classes on a
`Group` instance's resolution chain; the three lists below transcribe the
`def`s of each class body (`dunderInit` / `dunderStr` stand for `__init__` /
`__str__`, and the name-mangled private helpers of `WorkspaceObject` appear
under their unmangled names).  `group.py` imports its base from the
`workspaceObject` module, which is not present in the repository snapshot;
its method set is taken from the present `workspace_object.py` revision,
which (like the spec's Workspace Object contract) overrides none of the
snake_case strength methods. -/

inductive MName where
  | dunderInit | dunderStr
  | add_length_description_category | getIncompatibleGroups | addBondDescription
  | singleLetterGroupProbability | flippedVersion | buildGroup
  | activateDescriptions | lengthDescriptionProbability
  | break_the_structure | breakGroup
  | updateInternalStrength | updateExternalStrength
  | localSupport | numberOfLocalSupportingGroups | localDensity
  | sameGroup | distinguishingDescriptor
  | spansString | addDescription | addDescriptions
  | calculateIntraStringHappiness | calculateRawImportance | updateValue
  | isWithin | isOutsideOf | relevantDescriptions | getPossibleDescriptions
  | containsDescription | described | middleObject
  | relevantDistinguishingDescriptors | getDescriptor | getDescriptionType
  | getCommonGroups | letterDistance | letterSpan | beside
  | update_strength | update_total_strength | total_weakness
  | update_internal_strength | update_external_strength
deriving DecidableEq

/-- The method names defined in the class body of `Group` (`group.py`). -/
def groupClassMethods : List MName :=
  [.dunderInit, .add_length_description_category, .dunderStr,
   .getIncompatibleGroups, .addBondDescription, .singleLetterGroupProbability,
   .flippedVersion, .buildGroup, .activateDescriptions,
   .lengthDescriptionProbability, .break_the_structure, .breakGroup,
   .updateInternalStrength, .updateExternalStrength, .localSupport,
   .numberOfLocalSupportingGroups, .localDensity, .sameGroup,
   .distinguishingDescriptor]

/-- The method names defined in the class body of `WorkspaceObject`
(`workspace_object.py`). -/
def workspaceObjectClassMethods : List MName :=
  [.dunderInit, .dunderStr, .spansString, .addDescription, .addDescriptions,
   .calculateIntraStringHappiness, .calculateRawImportance, .updateValue,
   .isWithin, .isOutsideOf, .relevantDescriptions, .getPossibleDescriptions,
   .containsDescription, .described, .middleObject, .distinguishingDescriptor,
   .relevantDistinguishingDescriptors, .getDescriptor, .getDescriptionType,
   .getCommonGroups, .letterDistance, .letterSpan, .beside]

/-- The method names defined in the class body of `WorkspaceStructure`
(`workspace_structure.py`). -/
def workspaceStructureClassMethods : List MName :=
  [.dunderInit, .update_strength, .update_total_strength, .total_weakness,
   .update_internal_strength, .update_external_strength, .break_the_structure]

/-- The class (0 = `Group`, 1 = `WorkspaceObject`, 2 = `WorkspaceStructure`)
whose dict first provides a name, as CPython attribute lookup resolves it. -/
def firstProvider (m : MName) : Option ℕ :=
  if m ∈ groupClassMethods then some 0
  else if m ∈ workspaceObjectClassMethods then some 1
  else if m ∈ workspaceStructureClassMethods then some 2
  else none

/-- The bodies of the strength-contract methods, per class.  Only the
methods this development verifies are given bodies; a name resolved to a
class whose body is outside the verified fragment maps to `none` and
surfaces as the artificial `unmodelledMethod` error (which no verified
call path reaches). -/
noncomputable def implOf : ℕ → MName → Option (GroupPyState → Except PyErr GroupPyState)
  | 0, .updateInternalStrength => some (fun g => .ok (Group.updateInternalStrength g))
  | 0, .updateExternalStrength => some (fun g => .ok (Group.updateExternalStrength g))
  | 2, .update_total_strength => some (fun g => .ok (WorkspaceStructure.update_total_strength g))
  | 2, .update_internal_strength => some (fun _ => .error PyErr.notImplementedError)
  | 2, .update_external_strength => some (fun _ => .error PyErr.notImplementedError)
  | 2, .break_the_structure => some (fun _ => .error PyErr.notImplementedError)
  | _, _ => none

/-- Invoke method `m` on a `Group` instance: resolve the name along the
class chain, then run the resolved body. -/
noncomputable def invokeOnGroup (m : MName) (g : GroupPyState) : Except PyErr GroupPyState :=
  match firstProvider m with
  | none => Except.error PyErr.attributeError
  | some c =>
    match implOf c m with
    | some f => f g
    | none => Except.error PyErr.unmodelledMethod

/-- `WorkspaceStructure.update_strength` as dispatched on a `Group`
instance: `self.update_internal_strength()`, then
`self.update_external_strength()`, then `self.update_total_strength()`. -/
noncomputable def Group.update_strength (g : GroupPyState) : Except PyErr GroupPyState := do
  let g1 ← invokeOnGroup MName.update_internal_strength g
  let g2 ← invokeOnGroup MName.update_external_strength g1
  invokeOnGroup MName.update_total_strength g2

/-! ## Breaking a group (`group.py` lines 140–164)

The workspace heap: workspace objects, bonds, correspondences and
descriptions all live in one `ℕ`-indexed id space.  `objData` carries the
mutable per-object attributes read or written by the cascade; `bondData`,
`corrData` and `descOwner` carry the immutable endpoint/owner references of
bonds, correspondences and descriptions.  `stringObjects s` is string `s`'s
object list.

`description.py`, and the Bond and Correspondence classes, are not part of
the repository snapshot; `breakDescription`, `breakBond` and
`breakCorrespondence` below are modelled from the spec (§3 lifecycle: a
broken structure's back-references are removed from the owning collections;
§4.3: the cascade severs bonds, removes every description and breaks the
correspondence): each removes the structure from the workspace structure
list and clears the back-pointers on its endpoints/owner. -/

structure ObjData where
  group : Option ℕ
  correspondence : Option ℕ
  leftBond : Option ℕ
  rightBond : Option ℕ
  descriptions : List ℕ
  stringId : ℕ
  children : List ℕ
deriving DecidableEq

structure Workspace where
  objects : List ℕ
  structures : List ℕ
  stringObjects : ℕ → List ℕ
  objData : ℕ → ObjData
  bondData : ℕ → ℕ × ℕ
  corrData : ℕ → ℕ × ℕ
  descOwner : ℕ → ℕ

/-- Update one object's data in place. -/
def Workspace.setObj (s : Workspace) (i : ℕ) (f : ObjData → ObjData) : Workspace :=
  { s with objData := fun j => if j = i then f (s.objData j) else s.objData j }

/-- Modelled from the spec: breaking a correspondence removes it from the
workspace structures and clears the `correspondence` pointer of both of its
end objects. -/
def breakCorrespondence (c : ℕ) (s : Workspace) : Workspace :=
  let e := s.corrData c
  let s1 := { s with structures := s.structures.erase c }
  let s2 := s1.setObj e.1 (fun o => { o with correspondence := none })
  s2.setObj e.2 (fun o => { o with correspondence := none })

/-- Modelled from the spec: breaking a bond removes it from the workspace
structures, clears the left object's `rightBond` and the right object's
`leftBond`. -/
def breakBond (b : ℕ) (s : Workspace) : Workspace :=
  let e := s.bondData b
  let s1 := { s with structures := s.structures.erase b }
  let s2 := s1.setObj e.1 (fun o => { o with rightBond := none })
  s2.setObj e.2 (fun o => { o with leftBond := none })

/-- Modelled from the spec: breaking a description removes it from the
workspace structures and from its owning object's description list. -/
def breakDescription (d : ℕ) (s : Workspace) : Workspace :=
  let s1 := { s with structures := s.structures.erase d }
  s1.setObj (s.descOwner d) (fun o => { o with descriptions := o.descriptions.erase d })

/-- The `while len(self.descriptions)` loop of `breakGroup`: break the last
description, re-reading the list each iteration.  The fuel passed at the
call site is the list's current length, which is exactly the number of
iterations Python performs whenever each broken description belongs to the
group. -/
def breakDescriptionsLoop (g : ℕ) : ℕ → Workspace → Workspace
  | 0, s => s
  | fuel + 1, s =>
    match ((s.objData g).descriptions).getLast? with
    | none => s
    | some d => breakDescriptionsLoop g fuel (breakDescription d s)

/-- `if self.leftBond: self.leftBond.breakBond()` (`group.py` line 149). -/
def severLeftBond (g : ℕ) (s : Workspace) : Workspace :=
  match (s.objData g).leftBond with
  | some b => breakBond b s
  | none => s

/-- `if self.rightBond: self.rightBond.breakBond()` (`group.py` line 151). -/
def severRightBond (g : ℕ) (s : Workspace) : Workspace :=
  match (s.objData g).rightBond with
  | some b => breakBond b s
  | none => s

/-- The `while len(self.descriptions)` loop, entered with fuel equal to the
current list length. -/
def breakAllDescriptions (g : ℕ) (s : Workspace) : Workspace :=
  breakDescriptionsLoop g ((s.objData g).descriptions).length s

/-- `for o in self.objectList: o.group = None` (`group.py` lines 157–158). -/
def clearChildrenPointers (g : ℕ) (s : Workspace) : Workspace :=
  ((s.objData g).children).foldl
    (fun acc c => acc.setObj c (fun o => { o with group := none })) s

/-- `if self in workspace.structures: workspace.structures.remove(self)`. -/
def removeFromStructures (g : ℕ) (s : Workspace) : Workspace :=
  if g ∈ s.structures then { s with structures := s.structures.erase g } else s

/-- `if self in workspace.objects: workspace.objects.remove(self)`. -/
def removeFromObjects (g : ℕ) (s : Workspace) : Workspace :=
  if g ∈ s.objects then { s with objects := s.objects.erase g } else s

/-- `if self in self.string.objects: self.string.objects.remove(self)`. -/
def removeFromString (g : ℕ) (s : Workspace) : Workspace :=
  if g ∈ s.stringObjects ((s.objData g).stringId)
  then { s with stringObjects := fun j =>
          if j = (s.objData g).stringId
          then (s.stringObjects j).erase g else s.stringObjects j }
  else s

/-- The tail of `Group.breakGroup` (`group.py` lines 149–164), run after the
correspondence and containing-group cascade: sever the left and right
bonds, break every description, clear the children's `group` pointers, then
remove the group from the workspace structure list, the workspace object
list and its owning string's object list. -/
def breakGroupCore (g : ℕ) (s2 : Workspace) : Workspace :=
  removeFromString g (removeFromObjects g (removeFromStructures g
    (clearChildrenPointers g (breakAllDescriptions g
      (severRightBond g (severLeftBond g s2))))))

/-- `if self.correspondence: self.correspondence.breakCorrespondence()`
(`group.py` lines 145–146). -/
def breakCorrStage (g : ℕ) (s : Workspace) : Workspace :=
  match (s.objData g).correspondence with
  | some c => breakCorrespondence c s
  | none => s

/-- `Group.breakGroup` (`group.py` lines 143–164): break the correspondence
and the containing group first, then run the rest of the cascade
(`breakGroupCore`).  The recursion on the containing group is fuel-bounded;
any fuel at least the containment-chain height reproduces the Python call
exactly. -/
def breakGroup : ℕ → ℕ → Workspace → Workspace
  | 0, g, s => breakGroupCore g (breakCorrStage g s)
  | fuel + 1, g, s =>
    let s1 := breakCorrStage g s
    let s2 := match (s1.objData g).group with
              | some pg => breakGroup fuel pg s1
              | none => s1
    breakGroupCore g s2

/-! ## Auxiliary predicates used by the verification -/

/-- Two slipnets that agree everywhere except in the nodes' buffers (the
spread phase changes nothing else). -/
def EqButBuffer (a b : Slipnet) : Prop :=
  a.number_of_updates = b.number_of_updates ∧
  a.initially_clamped_slipnodes = b.initially_clamped_slipnodes ∧
  a.slipnodes.length = b.slipnodes.length ∧
  ∀ j, getNode a j = { getNode b j with buffer := (getNode a j).buffer }

/-- One object's data after a breaking step, relative to before: pointer
fields are unchanged or cleared, the description list only loses entries,
and the immutable attributes are untouched. -/
structure ObjReduces (o p : ObjData) : Prop where
  group_or : o.group = p.group ∨ o.group = none
  corr_or : o.correspondence = p.correspondence ∨ o.correspondence = none
  left_or : o.leftBond = p.leftBond ∨ o.leftBond = none
  right_or : o.rightBond = p.rightBond ∨ o.rightBond = none
  descs : o.descriptions.Sublist p.descriptions
  stringId_eq : o.stringId = p.stringId
  children_eq : o.children = p.children

/-- A workspace after a breaking step, relative to before: the collections
only lose members, object data only reduces, and the immutable endpoint
maps are untouched. -/
structure Reduces (t s : Workspace) : Prop where
  structures : t.structures.Sublist s.structures
  objects : t.objects.Sublist s.objects
  stringObjects : ∀ j, (t.stringObjects j).Sublist (s.stringObjects j)
  objData : ∀ x, ObjReduces (t.objData x) (s.objData x)
  bondData : t.bondData = s.bondData
  corrData : t.corrData = s.corrData
  descOwner : t.descOwner = s.descOwner

/-! ## Concrete inputs used by the counterexamples and witnesses -/

/-- A labelled link of length 0 from node 0 to node 1, with label node 2. -/
def linkEx : Sliplink := { source := 0, destination := 1, label := some 2, fixed_length := 0 }

/-- A fully active source node owning `linkEx`. -/
def srcEx : Slipnode :=
  { (Slipnode.make 50 0) with activation := 100, outgoing_links := [linkEx] }

/-- A fully active destination node. -/
def dstEx : Slipnode := { (Slipnode.make 50 0) with activation := 100 }

/-- The label node, with intrinsic link length 80 (so shrunk length 32). -/
def lblEx : Slipnode := Slipnode.make 50 80

/-- A three-node net in which node 0 spreads to node 1 along `linkEx`. -/
def netSpreadEx : Slipnet :=
  { slipnodes := [srcEx, dstEx, lblEx], number_of_updates := 0,
    initially_clamped_slipnodes := [] }

/-- A one-node net holding a clamped node of conceptual depth 20 at
activation 100 (the state of an a-priori node mid-run). -/
def netClampedEx : Slipnet :=
  { slipnodes := [{ (Slipnode.make 20 0) with activation := 100, clamped := true }],
    number_of_updates := 3, initially_clamped_slipnodes := [] }

/-- A two-node net whose node 0 is a-priori clamped and whose node 1 is
clamped outside the a-priori list. -/
def netResetEx : Slipnet :=
  { slipnodes := [Slipnode.make 30 0,
                  { (Slipnode.make 40 0) with activation := 42, clamped := true }],
    number_of_updates := 7, initially_clamped_slipnodes := [0] }

/-- A deterministic stand-in for the random stream (every draw is 1, so no
probabilistic jump fires). -/
def rEx : RState := { stream := fun _ => 1, k := 0 }

/-- Two nodes of depth 100 joined by a lateral slip link with no label and
fixed length 0, whose degree of association is therefore exactly 100. -/
def netSlipEx : Slipnet :=
  { slipnodes := [{ (Slipnode.make 100 0) with
                    lateral_slip_links := [{ source := 0, destination := 1,
                                             label := none, fixed_length := 0 }] },
                  Slipnode.make 100 0],
    number_of_updates := 0, initially_clamped_slipnodes := [] }

/-- Two unlinked nodes (degree of association 0). -/
def netPlainEx : Slipnet :=
  { slipnodes := [Slipnode.make 50 0, Slipnode.make 80 0],
    number_of_updates := 0, initially_clamped_slipnodes := [] }

/-- A default object datum for the workspace examples. -/
def objDataDefault : ObjData :=
  { group := none, correspondence := none, leftBond := none, rightBond := none,
    descriptions := [], stringId := 0, children := [] }

/-- A concrete workspace for the group-breaking witness: group 1 (children
4 and 5, descriptions 8 and 9, left bond 6, right bond 7, correspondence
10) is contained in group 2 (child 1, description 11) on string 0. -/
def wsEx : Workspace :=
  { objects := [4, 5, 1, 2, 3],
    structures := [1, 2, 6, 7, 8, 9, 10, 11],
    stringObjects := fun j => if j = 0 then [4, 5, 1, 2] else [],
    objData := fun i =>
      if i = 1 then
        { group := some 2, correspondence := some 10, leftBond := some 6,
          rightBond := some 7, descriptions := [8, 9], stringId := 0,
          children := [4, 5] }
      else if i = 2 then
        { objDataDefault with descriptions := [11], children := [1] }
      else if i = 4 then { objDataDefault with group := some 1 }
      else if i = 5 then { objDataDefault with group := some 1 }
      else if i = 3 then { objDataDefault with correspondence := some 10 }
      else objDataDefault,
    bondData := fun b => if b = 6 then (4, 1) else if b = 7 then (1, 5) else (0, 0),
    corrData := fun c => if c = 10 then (1, 3) else (0, 0),
    descOwner := fun d => if d = 11 then 2 else if d = 8 ∨ d = 9 then 1 else 0 }

/-- The internal-strength formula exactly as the specification sentence
words it (for comparison with the source's `Group.updateInternalStrength`):
the 0.98 power applied to the blended association term, the weights being
the raw association and its complement. -/
noncomputable def claimedInternalStrength (association : ℝ) (length : ℕ) : ℝ :=
  weighted_average [(association ^ (0.98 : ℝ), association),
                    (lengthFactor length, 100 - association)]

/-- A concrete group state with association 100 and one child. -/
noncomputable def groupEx : GroupPyState :=
  { internal_strength := 0, external_strength := 0, total_strength := 0,
    internalStrength := 0, externalStrength := 0,
    relatedBondAssociation := 100, numChildren := 1,
    spansStringB := false, localSupportVal := 0 }

/-- A concrete workspace structure whose total strength is 100. -/
noncomputable def structEx100 : GroupPyState :=
  { internal_strength := 100, external_strength := 100, total_strength := 100,
    internalStrength := 0, externalStrength := 0,
    relatedBondAssociation := 0, numChildren := 0,
    spansStringB := false, localSupportVal := 0 }

/-! # Theorems -/

/-- `x ↦ x^20` carries `100 ^ 0.95` to `100 ^ 19`. -/
lemma rpow95_pow20 : ((100:ℝ) ^ (0.95:ℝ)) ^ (20:ℕ) = (100:ℝ) ^ (19:ℕ) := by
  rw [← Real.rpow_natCast ((100:ℝ) ^ (0.95:ℝ)) 20,
      ← Real.rpow_mul (by norm_num : (0:ℝ) ≤ 100),
      show (0.95:ℝ) * ((20:ℕ):ℝ) = ((19:ℕ):ℝ) by norm_num,
      Real.rpow_natCast]

/-- Numeric bracketing of `100 ^ 0.95`. -/
lemma rpow95_bounds : (79.4:ℝ) < (100:ℝ) ^ (0.95:ℝ) ∧ (100:ℝ) ^ (0.95:ℝ) < 79.5 := by
  have hpos : (0:ℝ) ≤ (100:ℝ) ^ (0.95:ℝ) := (Real.rpow_pos_of_pos (by norm_num) _).le
  constructor
  · refine lt_of_pow_lt_pow_left₀ 20 hpos ?_
    rw [rpow95_pow20]; norm_num
  · refine lt_of_pow_lt_pow_left₀ 20 (by norm_num : (0:ℝ) ≤ 79.5) ?_
    rw [rpow95_pow20]; norm_num

/-- `100 ^ 0.98 < 100`. -/
lemma rpow98_lt_100 : (100:ℝ) ^ (0.98:ℝ) < 100 := by
  have h := Real.rpow_lt_rpow_of_exponent_lt (x := (100:ℝ)) (by norm_num)
    (show (0.98:ℝ) < 1 by norm_num)
  simpa [Real.rpow_one] using h

/-- Closed form of the two-entry weighted average used by the strength
model: the weights `i` and `100 − i` always total 100. -/
lemma weighted_average_pair (a b i e : ℝ) (h : i + e = 100) :
    weighted_average [(a, i), (b, e)] = (a * i + b * e) / 100 := by
  simp only [weighted_average, List.foldl, zero_add]
  rw [if_neg (by rw [h]; norm_num), h]

/-- C6: `update_strength` runs the internal update, then the external
update, then recombines `total_strength` as the self-weighted blend
`weighted_average [(internal, internal), (external, 100 − internal)]`,
which equals `(i·i + e·(100 − i)) / 100`. -/
theorem update_strength_self_weighted (fInt fExt : GroupPyState → GroupPyState)
    (g : GroupPyState) :
    WorkspaceStructure.update_strength_via fInt fExt g
        = WorkspaceStructure.update_total_strength (fExt (fInt g)) ∧
    (WorkspaceStructure.update_strength_via fInt fExt g).total_strength
        = weighted_average
            [((fExt (fInt g)).internal_strength, (fExt (fInt g)).internal_strength),
             ((fExt (fInt g)).external_strength, 100 - (fExt (fInt g)).internal_strength)] ∧
    (WorkspaceStructure.update_strength_via fInt fExt g).total_strength
        = ((fExt (fInt g)).internal_strength * (fExt (fInt g)).internal_strength
            + (fExt (fInt g)).external_strength * (100 - (fExt (fInt g)).internal_strength)) / 100 := by
  refine ⟨rfl, rfl, ?_⟩
  exact weighted_average_pair _ _ _ _ (by ring)

/-- C3: on a `Group` instance the snake_case strength contract is provided
only by the abstract base class, so `update_strength()` raises
`NotImplementedError`; `group.py` itself defines only the camelCase
`updateInternalStrength` / `updateExternalStrength`. -/
theorem group_update_strength_raises :
    MName.updateInternalStrength ∈ groupClassMethods ∧
    MName.updateExternalStrength ∈ groupClassMethods ∧
    MName.update_internal_strength ∉ groupClassMethods ∧
    MName.update_internal_strength ∉ workspaceObjectClassMethods ∧
    MName.update_internal_strength ∈ workspaceStructureClassMethods ∧
    MName.update_external_strength ∉ groupClassMethods ∧
    MName.update_external_strength ∉ workspaceObjectClassMethods ∧
    MName.update_external_strength ∈ workspaceStructureClassMethods ∧
    ∀ g : GroupPyState, Group.update_strength g = Except.error PyErr.notImplementedError := by
  refine ⟨by decide, by decide, by decide, by decide, by decide, by decide, by decide, by decide, ?_⟩
  intro g
  rfl

/-- C10: `weighted_choice` returns `None` (not an error) on an empty
sequence, and on a single candidate of weight 0 it is well defined and
returns that candidate, for every uniform draw. -/
theorem weighted_choice_degenerate (α : Type) :
    (∀ r : ℚ, weighted_choice ([] : List α) [] r = Except.ok none) ∧
    (∀ (x : α) (r : ℚ), weighted_choice [x] [(0:ℚ)] r = Except.ok (some x)) := by
  constructor
  · intro r; rfl
  · intro x r
    simp [weighted_choice, accumulate, bisect_left, bisectLeftLoop]

/-- C9 counterexample: at total strength 100 the total weakness is not
approximately 2.85 — it exceeds 20. -/
theorem total_weakness_counterexample :
    20 < WorkspaceStructure.total_weakness structEx100 ∧
    WorkspaceStructure.total_weakness structEx100 ≠ 2.85 := by
  have hb := rpow95_bounds
  have hs : WorkspaceStructure.total_weakness structEx100 = 100 - (100:ℝ) ^ (0.95:ℝ) := rfl
  constructor
  · rw [hs]; linarith [hb.2]
  · rw [hs]; intro h; nlinarith [hb.1, hb.2]

/-- C9 (amended): for a structure of total strength 100 the weakness is
exactly `100 − 100^0.95`, which is not 0 and lies in `(20.5, 20.6)`
(≈ 20.57) — the 0.95 exponent is honoured. -/
theorem total_weakness_at_100 (g : GroupPyState) (h : g.total_strength = 100) :
    WorkspaceStructure.total_weakness g = 100 - (100:ℝ) ^ (0.95:ℝ) ∧
    WorkspaceStructure.total_weakness g ≠ 0 ∧
    20.5 < WorkspaceStructure.total_weakness g ∧
    WorkspaceStructure.total_weakness g < 20.6 := by
  have hb := rpow95_bounds
  have hs : WorkspaceStructure.total_weakness g = 100 - (100:ℝ) ^ (0.95:ℝ) := by
    simp [WorkspaceStructure.total_weakness, h]
  refine ⟨hs, ?_, ?_, ?_⟩
  · rw [hs]; intro hzero; nlinarith [hb.1, hb.2]
  · rw [hs]; linarith [hb.2]
  · rw [hs]; linarith [hb.1]

/-- Witness for C9 at the concrete structure `structEx100`. -/
theorem total_weakness_at_100_witness :
    structEx100.total_strength = 100 ∧
    (WorkspaceStructure.total_weakness structEx100 = 100 - (100:ℝ) ^ (0.95:ℝ) ∧
     WorkspaceStructure.total_weakness structEx100 ≠ 0 ∧
     20.5 < WorkspaceStructure.total_weakness structEx100 ∧
     WorkspaceStructure.total_weakness structEx100 < 20.6) :=
  ⟨rfl, total_weakness_at_100 structEx100 rfl⟩

/-- C7 counterexample: with association 100 and one child, the source's
internal strength differs from the claim's reading (0.98 power on the
blended value, raw association as its weight). -/
theorem group_internal_strength_counterexample :
    claimedInternalStrength 100 1 < (Group.updateInternalStrength groupEx).internalStrength ∧
    (Group.updateInternalStrength groupEx).internalStrength ≠ claimedInternalStrength 100 1 := by
  have hW := rpow98_lt_100
  have hcode : (Group.updateInternalStrength groupEx).internalStrength
      = (100 * (100:ℝ) ^ (0.98:ℝ) + 5 * (100 - (100:ℝ) ^ (0.98:ℝ))) / 100 := by
    show weighted_average [((100:ℝ), (100:ℝ) ^ (0.98:ℝ)),
                           (lengthFactor 1, 100 - (100:ℝ) ^ (0.98:ℝ))]
        = (100 * (100:ℝ) ^ (0.98:ℝ) + 5 * (100 - (100:ℝ) ^ (0.98:ℝ))) / 100
    rw [show lengthFactor 1 = 5 from rfl]
    exact weighted_average_pair _ _ _ _ (by ring)
  have hclaim : claimedInternalStrength 100 1 = (100:ℝ) ^ (0.98:ℝ) := by
    show weighted_average [((100:ℝ) ^ (0.98:ℝ), (100:ℝ)), (lengthFactor 1, 100 - 100)] = _
    rw [weighted_average_pair _ _ _ _ (by ring : (100:ℝ) + (100 - 100) = 100)]
    ring
  constructor
  · rw [hcode, hclaim]; nlinarith
  · rw [hcode, hclaim]; intro h; nlinarith

/-- C7 (amended): for a group of any size, the internal strength blends the
raw association with the table length factor {1→5, 2→20, 3→60, ≥4→90}, the
weights being the association raised to the 0.98 power and its complement. -/
theorem group_internal_strength_formula (g : GroupPyState) (n : ℕ) :
    (Group.updateInternalStrength g).internalStrength
      = weighted_average
          [(g.relatedBondAssociation, g.relatedBondAssociation ^ (0.98:ℝ)),
           (lengthFactor g.numChildren, 100 - g.relatedBondAssociation ^ (0.98:ℝ))] ∧
    lengthFactor 1 = 5 ∧ lengthFactor 2 = 20 ∧ lengthFactor 3 = 60 ∧
    lengthFactor (n + 4) = 90 ∧
    (Group.updateInternalStrength g).internalStrength
      = (g.relatedBondAssociation * g.relatedBondAssociation ^ (0.98:ℝ)
          + lengthFactor g.numChildren * (100 - g.relatedBondAssociation ^ (0.98:ℝ))) / 100 := by
  have hlf : lengthFactor (n + 4) = 90 := by
    rw [lengthFactor, if_neg (by omega), if_neg (by omega), if_neg (by omega)]
  refine ⟨rfl, rfl, rfl, rfl, hlf, ?_⟩
  show weighted_average
      [(g.relatedBondAssociation, g.relatedBondAssociation ^ (0.98:ℝ)),
       (lengthFactor g.numChildren, 100 - g.relatedBondAssociation ^ (0.98:ℝ))] = _
  rw [weighted_average_pair _ _ _ _ (by ring)]

/-- Witness for C7 at a concrete one-child group of association 100:
its length factor is 5 and the blend formula applies unchanged. -/
theorem group_internal_strength_formula_witness :
    (Group.updateInternalStrength groupEx).internalStrength
      = weighted_average
          [(groupEx.relatedBondAssociation, groupEx.relatedBondAssociation ^ (0.98:ℝ)),
           (lengthFactor groupEx.numChildren, 100 - groupEx.relatedBondAssociation ^ (0.98:ℝ))] ∧
    lengthFactor 1 = 5 ∧ lengthFactor 2 = 20 ∧ lengthFactor 3 = 60 ∧
    lengthFactor (3 + 4) = 90 ∧
    (Group.updateInternalStrength groupEx).internalStrength
      = (groupEx.relatedBondAssociation * groupEx.relatedBondAssociation ^ (0.98:ℝ)
          + lengthFactor groupEx.numChildren * (100 - groupEx.relatedBondAssociation ^ (0.98:ℝ))) / 100 :=
  group_internal_strength_formula groupEx 3

/-- C4 counterexample: two distinct descriptors joined by a lateral slip
link of association exactly 100 (and conceptual depth 100) score
slippability 100, while the claim's unguarded formula yields 0 (and its
strength formula 200). -/
theorem concept_mapping_counterexample :
    ConceptMapping.slippability netSlipEx 0 1 = 100 ∧
    ConceptMapping.strength netSlipEx 0 1 = 100 ∧
    ConceptMapping.degreeOfAssociation netSlipEx 0 1 = 100 ∧
    (0 : ℕ) ≠ 1 ∧
    ConceptMapping.degreeOfAssociation netSlipEx 0 1
      * (1 - (ConceptMapping.conceptualDepth netSlipEx 0 1 / 100)
           * (ConceptMapping.conceptualDepth netSlipEx 0 1 / 100)) = 0 ∧
    ConceptMapping.degreeOfAssociation netSlipEx 0 1
      * (1 + (ConceptMapping.conceptualDepth netSlipEx 0 1 / 100)
           * (ConceptMapping.conceptualDepth netSlipEx 0 1 / 100)) = 200 := by
  have hdoa : ConceptMapping.degreeOfAssociation netSlipEx 0 1 = 100 := by
    simp [ConceptMapping.degreeOfAssociation, netSlipEx, getNode, Slipnode.make,
          List.find?, Sliplink.degree_of_association]
  have hdep : ConceptMapping.conceptualDepth netSlipEx 0 1 = 100 := by
    simp [ConceptMapping.conceptualDepth, netSlipEx, getNode, Slipnode.make]
  refine ⟨?_, ?_, hdoa, by decide, ?_, ?_⟩
  · simp [ConceptMapping.slippability, hdoa]
  · simp [ConceptMapping.strength, hdoa]
  · rw [hdoa, hdep]; norm_num
  · rw [hdoa, hdep]; norm_num

end Copycat

namespace Copycat

/-- C4 (amended): the degree of association is 100 for identical
descriptors, else read off a direct lateral slip link, else 0; whenever it
is not exactly 100, `slippability = association × (1 − depth²)` and
`strength = association × (1 + depth²)` with `depth` the mean of the two
conceptual depths normalised to `[0, 1]`; whenever it is exactly 100 — in
particular for identical descriptors, regardless of depth — both functions
return exactly 100. -/
theorem concept_mapping_scoring (net : Slipnet) (iD tD : ℕ)
    (hne : ConceptMapping.degreeOfAssociation net iD tD ≠ 100) :
    ConceptMapping.slippability net iD tD
      = ConceptMapping.degreeOfAssociation net iD tD
          * (1 - ConceptMapping.conceptualDepth net iD tD / 100
               * (ConceptMapping.conceptualDepth net iD tD / 100)) ∧
    ConceptMapping.strength net iD tD
      = ConceptMapping.degreeOfAssociation net iD tD
          * (1 + ConceptMapping.conceptualDepth net iD tD / 100
               * (ConceptMapping.conceptualDepth net iD tD / 100)) ∧
    (∀ i, ConceptMapping.degreeOfAssociation net i i = 100 ∧
          ConceptMapping.slippability net i i = 100 ∧
          ConceptMapping.strength net i i = 100) ∧
    (∀ i t, ConceptMapping.degreeOfAssociation net i t = 100 →
          ConceptMapping.slippability net i t = 100 ∧
          ConceptMapping.strength net i t = 100) ∧
    (∀ i t, i ≠ t →
        (getNode net i).lateral_slip_links.find? (fun l => l.destination = t) = none →
        ConceptMapping.degreeOfAssociation net i t = 0) ∧
    (∀ i t l, i ≠ t →
        (getNode net i).lateral_slip_links.find? (fun l => l.destination = t) = some l →
        ConceptMapping.degreeOfAssociation net i t = l.degree_of_association net) := by
  refine ⟨?_, ?_, ?_, ?_, ?_, ?_⟩
  · simp only [ConceptMapping.slippability]
    rw [if_neg hne]
  · simp only [ConceptMapping.strength]
    rw [if_neg hne]
  · intro i
    have hd : ConceptMapping.degreeOfAssociation net i i = 100 := by
      simp [ConceptMapping.degreeOfAssociation]
    exact ⟨hd, by simp [ConceptMapping.slippability, hd], by simp [ConceptMapping.strength, hd]⟩
  · intro i t hd
    exact ⟨by simp [ConceptMapping.slippability, hd], by simp [ConceptMapping.strength, hd]⟩
  · intro i t hit hfind
    simp [ConceptMapping.degreeOfAssociation, hit, hfind]
  · intro i t l hit hfind
    simp [ConceptMapping.degreeOfAssociation, hit, hfind]

/-- Witness for C4 at two concrete unlinked descriptors (association 0). -/
theorem concept_mapping_scoring_witness :
    ConceptMapping.degreeOfAssociation netPlainEx 0 1 ≠ 100 ∧
    (ConceptMapping.slippability netPlainEx 0 1
      = ConceptMapping.degreeOfAssociation netPlainEx 0 1
          * (1 - ConceptMapping.conceptualDepth netPlainEx 0 1 / 100
               * (ConceptMapping.conceptualDepth netPlainEx 0 1 / 100)) ∧
     ConceptMapping.strength netPlainEx 0 1
      = ConceptMapping.degreeOfAssociation netPlainEx 0 1
          * (1 + ConceptMapping.conceptualDepth netPlainEx 0 1 / 100
               * (ConceptMapping.conceptualDepth netPlainEx 0 1 / 100)) ∧
     (∀ i, ConceptMapping.degreeOfAssociation netPlainEx i i = 100 ∧
           ConceptMapping.slippability netPlainEx i i = 100 ∧
           ConceptMapping.strength netPlainEx i i = 100) ∧
     (∀ i t, ConceptMapping.degreeOfAssociation netPlainEx i t = 100 →
           ConceptMapping.slippability netPlainEx i t = 100 ∧
           ConceptMapping.strength netPlainEx i t = 100) ∧
     (∀ i t, i ≠ t →
         (getNode netPlainEx i).lateral_slip_links.find? (fun l => l.destination = t) = none →
         ConceptMapping.degreeOfAssociation netPlainEx i t = 0) ∧
     (∀ i t l, i ≠ t →
         (getNode netPlainEx i).lateral_slip_links.find? (fun l => l.destination = t) = some l →
         ConceptMapping.degreeOfAssociation netPlainEx i t = l.degree_of_association netPlainEx)) := by
  have hne : ConceptMapping.degreeOfAssociation netPlainEx 0 1 ≠ 100 := by
    simp [ConceptMapping.degreeOfAssociation, netPlainEx, getNode, Slipnode.make, List.find?]
  exact ⟨hne, concept_mapping_scoring netPlainEx 0 1 hne⟩

end Copycat

namespace Copycat

lemma modifyNode_length (net : Slipnet) (i : ℕ) (f : Slipnode → Slipnode) :
    (modifyNode net i f).slipnodes.length = net.slipnodes.length := by
  unfold modifyNode
  cases h : net.slipnodes.get? i <;> simp

lemma modifyNode_counter (net : Slipnet) (i : ℕ) (f : Slipnode → Slipnode) :
    (modifyNode net i f).number_of_updates = net.number_of_updates := by
  unfold modifyNode
  cases h : net.slipnodes.get? i <;> simp

lemma modifyNode_initially (net : Slipnet) (i : ℕ) (f : Slipnode → Slipnode) :
    (modifyNode net i f).initially_clamped_slipnodes = net.initially_clamped_slipnodes := by
  unfold modifyNode
  cases h : net.slipnodes.get? i <;> simp

lemma getNode_eq_getElem (net : Slipnet) (i : ℕ) (h : i < net.slipnodes.length) :
    getNode net i = net.slipnodes[i] := by
  simp [getNode, List.getD_eq_getElem?_getD, List.getElem?_eq_getElem h]

lemma getNode_modifyNode_self (net : Slipnet) (i : ℕ) (f : Slipnode → Slipnode)
    (h : i < net.slipnodes.length) :
    getNode (modifyNode net i f) i = f (getNode net i) := by
  unfold modifyNode
  rw [List.get?_eq_getElem?, List.getElem?_eq_getElem h]
  simp [getNode, List.getD_eq_getElem?_getD, List.getElem?_set_self,
        List.getElem?_eq_getElem h, h]

lemma getNode_modifyNode_ne (net : Slipnet) (i j : ℕ) (f : Slipnode → Slipnode)
    (h : j ≠ i) :
    getNode (modifyNode net i f) j = getNode net j := by
  unfold modifyNode
  cases hg : net.slipnodes.get? i with
  | none => rfl
  | some n =>
    simp [getNode, List.getD_eq_getElem?_getD, List.getElem?_set_ne (Ne.symm h)]

end Copycat

namespace Copycat

lemma EqButBuffer.base (a : Slipnet) : EqButBuffer a a :=
  ⟨rfl, rfl, rfl, fun _ => rfl⟩

lemma EqButBuffer.chain {a b c : Slipnet} (hab : EqButBuffer a b) (hbc : EqButBuffer b c) :
    EqButBuffer a c := by
  obtain ⟨h1, h2, h3, h4⟩ := hab
  obtain ⟨g1, g2, g3, g4⟩ := hbc
  refine ⟨h1.trans g1, h2.trans g2, h3.trans g3, fun j => ?_⟩
  rw [h4 j, g4 j]

lemma EqButBuffer.activation {a b : Slipnet} (h : EqButBuffer a b) (j : ℕ) :
    (getNode a j).activation = (getNode b j).activation := by
  rw [h.2.2.2 j]

lemma EqButBuffer.clamped {a b : Slipnet} (h : EqButBuffer a b) (j : ℕ) :
    (getNode a j).clamped = (getNode b j).clamped := by
  rw [h.2.2.2 j]

lemma EqButBuffer.outgoing {a b : Slipnet} (h : EqButBuffer a b) (j : ℕ) :
    (getNode a j).outgoing_links = (getNode b j).outgoing_links := by
  rw [h.2.2.2 j]

lemma EqButBuffer.fully_active_iff {a b : Slipnet} (h : EqButBuffer a b) (j : ℕ) :
    (getNode a j).fully_active ↔ (getNode b j).fully_active := by
  unfold Slipnode.fully_active
  rw [h.activation j]

lemma EqButBuffer.intrinsic_len {a b : Slipnet} (h : EqButBuffer a b) (j : ℕ) :
    (getNode a j).intrinsic_link_length = (getNode b j).intrinsic_link_length := by
  rw [h.2.2.2 j]

lemma EqButBuffer.intrinsic {a b : Slipnet} (h : EqButBuffer a b) (l : Sliplink) :
    l.intrinsic_degree_of_association a = l.intrinsic_degree_of_association b := by
  unfold Sliplink.intrinsic_degree_of_association
  cases hl : l.label with
  | none => rfl
  | some lab => simp only [hl, h.intrinsic_len lab]

lemma modifyNode_oob (net : Slipnet) (i : ℕ) (f : Slipnode → Slipnode)
    (h : ¬ i < net.slipnodes.length) :
    modifyNode net i f = net := by
  unfold modifyNode
  rw [List.get?_eq_getElem?, List.getElem?_eq_none (by omega)]

lemma spread_link_eqbb (net : Slipnet) (l : Sliplink) :
    EqButBuffer (l.spread_activation net) net := by
  unfold Sliplink.spread_activation
  refine ⟨modifyNode_counter _ _ _, modifyNode_initially _ _ _, modifyNode_length _ _ _,
          fun j => ?_⟩
  by_cases hj : j = l.destination
  · by_cases hlt : l.destination < net.slipnodes.length
    · subst hj
      rw [getNode_modifyNode_self _ _ _ hlt]
    · rw [modifyNode_oob _ _ _ hlt]
  · rw [getNode_modifyNode_ne _ _ _ _ hj]

lemma spread_link_buffer (net : Slipnet) (l : Sliplink) (i : ℕ)
    (hi : i < net.slipnodes.length) :
    (getNode (l.spread_activation net) i).buffer
      = (getNode net i).buffer
        + (if l.destination = i then l.intrinsic_degree_of_association net else 0) := by
  unfold Sliplink.spread_activation
  by_cases hj : l.destination = i
  · subst hj
    rw [getNode_modifyNode_self _ _ _ hi]
    simp
  · rw [getNode_modifyNode_ne _ _ _ _ (fun h => hj h.symm)]
    simp [hj]

lemma spread_links_fold (base : Slipnet) (i : ℕ) (hi : i < base.slipnodes.length) :
    ∀ (ls : List Sliplink) (net : Slipnet), EqButBuffer net base →
      EqButBuffer (ls.foldl (fun acc l => l.spread_activation acc) net) base ∧
      (getNode (ls.foldl (fun acc l => l.spread_activation acc) net) i).buffer
        = (getNode net i).buffer
          + ((ls.filter (fun l => l.destination = i)).map
              (fun l => l.intrinsic_degree_of_association base)).sum := by
  intro ls
  induction ls with
  | nil => intro net h; exact ⟨h, by simp⟩
  | cons l ls ih =>
    intro net h
    have hlen : net.slipnodes.length = base.slipnodes.length := h.2.2.1
    have hstep := spread_link_eqbb net l
    have hnext : EqButBuffer (l.spread_activation net) base := hstep.chain h
    obtain ⟨hfold, hbuf⟩ := ih (l.spread_activation net) hnext
    refine ⟨hfold, ?_⟩
    simp only [List.foldl_cons] at *
    rw [hbuf, spread_link_buffer net l i (by omega)]
    by_cases hd : l.destination = i
    · simp [hd, hstep.intrinsic, h.intrinsic, add_assoc]
    · simp [hd]

lemma spread_node_fold (base : Slipnet) (i : ℕ) (hi : i < base.slipnodes.length)
    (j : ℕ) (net : Slipnet) (h : EqButBuffer net base) :
    EqButBuffer (Slipnode.spread_activation net j) base ∧
    (getNode (Slipnode.spread_activation net j) i).buffer
      = (getNode net i).buffer
        + (if (getNode base j).fully_active then
            (((getNode base j).outgoing_links.filter (fun l => l.destination = i)).map
              (fun l => l.intrinsic_degree_of_association base)).sum
          else 0) := by
  unfold Slipnode.spread_activation
  by_cases hact : (getNode net j).fully_active
  · have hact' : (getNode base j).fully_active := (h.fully_active_iff j).mp hact
    rw [if_pos hact, if_pos hact']
    rw [← h.outgoing j]
    exact spread_links_fold base i hi ((getNode net j).outgoing_links) net h
  · have hact' : ¬ (getNode base j).fully_active := fun hb => hact ((h.fully_active_iff j).mpr hb)
    rw [if_neg hact, if_neg hact']
    exact ⟨h, by simp⟩

lemma spread_sources_fold (base : Slipnet) (i : ℕ) (hi : i < base.slipnodes.length) :
    ∀ (srcs : List ℕ) (net : Slipnet), EqButBuffer net base →
      EqButBuffer (srcs.foldl (fun acc j => Slipnode.spread_activation acc j) net) base ∧
      (getNode (srcs.foldl (fun acc j => Slipnode.spread_activation acc j) net) i).buffer
        = (getNode net i).buffer
          + (srcs.map (fun j =>
              if (getNode base j).fully_active then
                (((getNode base j).outgoing_links.filter (fun l => l.destination = i)).map
                  (fun l => l.intrinsic_degree_of_association base)).sum
              else 0)).sum := by
  intro srcs
  induction srcs with
  | nil => intro net h; exact ⟨h, by simp⟩
  | cons j srcs ih =>
    intro net h
    obtain ⟨h1, h2⟩ := spread_node_fold base i hi j net h
    obtain ⟨hfold, hbuf⟩ := ih (Slipnode.spread_activation net j) h1
    refine ⟨hfold, ?_⟩
    simp only [List.foldl_cons, List.map_cons, List.sum_cons] at *
    rw [hbuf, h2, add_assoc]

lemma range_map_getD_sum {α : Type} (F : α → ℚ) (d : α) :
    ∀ (xs : List α),
      ((List.range xs.length).map (fun j => F (xs.getD j d))).sum = (xs.map F).sum := by
  intro xs
  induction xs with
  | nil => simp
  | cons x xs ih =>
    rw [List.length_cons, List.range_succ_eq_map]
    simp only [List.map_cons, List.sum_cons, List.map_map, List.getD_cons_zero]
    have : ((List.range xs.length).map ((fun j => F ((x :: xs).getD j d)) ∘ Nat.succ)).sum
        = ((List.range xs.length).map (fun j => F (xs.getD j d))).sum := by
      congr 1
    rw [this, ih]

lemma spreadPhase_eqbb (net : Slipnet) : EqButBuffer (spreadPhase net) net := by
  unfold spreadPhase
  by_cases hz : net.slipnodes.length = 0
  · rw [hz]
    exact EqButBuffer.base net
  · exact (spread_sources_fold net 0 (by omega) (List.range net.slipnodes.length) net
      (EqButBuffer.base net)).1

lemma spreadPhase_buffer (net : Slipnet) (i : ℕ) (hi : i < net.slipnodes.length) :
    (getNode (spreadPhase net) i).buffer = (getNode net i).buffer + spreadReceipts net i := by
  unfold spreadPhase
  obtain ⟨_, hbuf⟩ := spread_sources_fold net i hi (List.range net.slipnodes.length) net
    (EqButBuffer.base net)
  rw [hbuf]
  congr 1
  unfold spreadReceipts
  simp only [getNode]
  exact range_map_getD_sum
    (fun n => if n.fully_active then
        ((n.outgoing_links.filter (fun l => l.destination = i)).map
          (fun l => l.intrinsic_degree_of_association net)).sum
      else 0) default net.slipnodes

/-- The spread phase changes exactly each node's buffer, by its spread
receipts. -/
lemma spreadPhase_getNode (net : Slipnet) (i : ℕ) (hi : i < net.slipnodes.length) :
    getNode (spreadPhase net) i
      = { getNode net i with buffer := (getNode net i).buffer + spreadReceipts net i } := by
  have h := (spreadPhase_eqbb net).2.2.2 i
  rw [h, spreadPhase_buffer net i hi]

end Copycat

namespace Copycat

lemma decayPhase_length (net : Slipnet) :
    (decayPhase net).slipnodes.length = net.slipnodes.length := by
  simp [decayPhase]

lemma decayPhase_counter (net : Slipnet) :
    (decayPhase net).number_of_updates = net.number_of_updates := rfl

lemma decayPhase_initially (net : Slipnet) :
    (decayPhase net).initially_clamped_slipnodes = net.initially_clamped_slipnodes := rfl

lemma decayPhase_getNode (net : Slipnet) (i : ℕ) (hi : i < net.slipnodes.length) :
    getNode (decayPhase net) i = Slipnode.update (getNode net i) := by
  rw [getNode_eq_getElem _ _ (by simpa [decayPhase_length] using hi),
      getNode_eq_getElem _ _ hi]
  simp [decayPhase]

lemma decayPhase_activation (net : Slipnet) (j : ℕ) :
    (getNode (decayPhase net) j).activation = (getNode net j).activation := by
  by_cases hj : j < net.slipnodes.length
  · rw [decayPhase_getNode net j hj]; rfl
  · unfold getNode
    rw [List.getD_eq_getElem?_getD, List.getD_eq_getElem?_getD,
        List.getElem?_eq_none (by simpa [decayPhase_length] using hj),
        List.getElem?_eq_none (by omega)]

lemma decayPhase_intrinsic_len (net : Slipnet) (j : ℕ) :
    (getNode (decayPhase net) j).intrinsic_link_length
      = (getNode net j).intrinsic_link_length := by
  by_cases hj : j < net.slipnodes.length
  · rw [decayPhase_getNode net j hj]; rfl
  · unfold getNode
    rw [List.getD_eq_getElem?_getD, List.getD_eq_getElem?_getD,
        List.getElem?_eq_none (by simpa [decayPhase_length] using hj),
        List.getElem?_eq_none (by omega)]

lemma decayPhase_outgoing (net : Slipnet) (j : ℕ) :
    (getNode (decayPhase net) j).outgoing_links = (getNode net j).outgoing_links := by
  by_cases hj : j < net.slipnodes.length
  · rw [decayPhase_getNode net j hj]; rfl
  · unfold getNode
    rw [List.getD_eq_getElem?_getD, List.getD_eq_getElem?_getD,
        List.getElem?_eq_none (by simpa [decayPhase_length] using hj),
        List.getElem?_eq_none (by omega)]

lemma decayPhase_intrinsic (net : Slipnet) (l : Sliplink) :
    l.intrinsic_degree_of_association (decayPhase net)
      = l.intrinsic_degree_of_association net := by
  unfold Sliplink.intrinsic_degree_of_association
  cases hl : l.label with
  | none => rfl
  | some lab => simp only [hl, decayPhase_intrinsic_len net lab]

/-- Decay changes no activation, so the spread receipts computed after the
decay loop coincide with those computed from the pre-tick activations. -/
lemma spreadReceipts_decayPhase (net : Slipnet) (i : ℕ) :
    spreadReceipts (decayPhase net) i = spreadReceipts net i := by
  unfold spreadReceipts
  show ((net.slipnodes.map Slipnode.update).map _).sum = _
  rw [List.map_map]
  congr 1
  apply List.map_congr_left
  intro n _
  have h1 : (Slipnode.update n).fully_active = n.fully_active := rfl
  have h2 : (Slipnode.update n).outgoing_links = n.outgoing_links := rfl
  simp only [Function.comp_apply, h1, h2]
  by_cases hfa : n.fully_active
  · rw [if_pos hfa, if_pos hfa]
    congr 1
    apply List.map_congr_left
    intro l _
    exact decayPhase_intrinsic net l
  · rw [if_neg hfa, if_neg hfa]

lemma integrateNode_stream (n : Slipnode) (r : RState) :
    (integrateNode n r).2.stream = r.stream := by
  simp only [integrateNode, Slipnode.jump, RState.coin_flip]
  by_cases h : n.add_buffer.clamped = true ∨ n.add_buffer.activation ≤ jump_threshold
  · rw [if_pos h]
  · rw [if_neg h]

lemma integrateNode_buffer (n : Slipnode) (r : RState) :
    (integrateNode n r).1.buffer = 0 := rfl

lemma integrateNode_clamped (n : Slipnode) (r : RState) :
    (integrateNode n r).1.clamped = n.clamped := by
  simp only [integrateNode, Slipnode.jump, RState.coin_flip]
  by_cases h : n.add_buffer.clamped = true ∨ n.add_buffer.activation ≤ jump_threshold
  · rw [if_pos h]
    rfl
  · rw [if_neg h]
    by_cases hb : decide (r.stream r.k < (n.add_buffer.activation / 100) ^ 3) = true
    · rw [if_pos hb]
      rfl
    · rw [if_neg hb]
      rfl

lemma integrate_fold_char (idxs : List ℕ) :
    ∀ (net : Slipnet) (r : RState), idxs.Nodup →
      let res := idxs.foldl
        (fun acc i =>
          let nr := integrateNode (getNode acc.1 i) acc.2
          (modifyNode acc.1 i (fun _ => nr.1), nr.2)) (net, r)
      res.1.slipnodes.length = net.slipnodes.length ∧
      res.1.number_of_updates = net.number_of_updates ∧
      res.1.initially_clamped_slipnodes = net.initially_clamped_slipnodes ∧
      res.2.stream = r.stream ∧
      (∀ j, j ∉ idxs → getNode res.1 j = getNode net j) ∧
      (∀ i, i ∈ idxs → i < net.slipnodes.length →
        ∃ k, getNode res.1 i = (integrateNode (getNode net i) ⟨r.stream, k⟩).1) := by
  induction idxs with
  | nil => intro net r _; exact ⟨rfl, rfl, rfl, rfl, fun j _ => rfl, fun i hi => absurd hi (by simp)⟩
  | cons i idxs ih =>
    intro net r hnd
    have hnd' : idxs.Nodup := hnd.of_cons
    have hni : i ∉ idxs := by
      intro hmem
      exact (List.nodup_cons.mp hnd).1 hmem
    set nr := integrateNode (getNode net i) r with hnr
    set net' := modifyNode net i (fun _ => nr.1) with hnet'
    obtain ⟨l1, l2, l3, l4, l5, l6⟩ := ih net' nr.2 hnd'
    have hlen' : net'.slipnodes.length = net.slipnodes.length := modifyNode_length _ _ _
    refine ⟨by rw [List.foldl_cons]; rw [l1, hlen'],
            by rw [List.foldl_cons]; rw [l2]; exact modifyNode_counter _ _ _,
            by rw [List.foldl_cons]; rw [l3]; exact modifyNode_initially _ _ _,
            by rw [List.foldl_cons]; rw [l4]; exact integrateNode_stream _ _,
            ?_, ?_⟩
    · intro j hj
      rw [List.foldl_cons]
      have hj1 : j ≠ i := fun h => hj (h ▸ List.mem_cons_self i idxs)
      have hj2 : j ∉ idxs := fun h => hj (List.mem_cons_of_mem i h)
      rw [l5 j hj2]
      exact getNode_modifyNode_ne _ _ _ _ hj1
    · intro i' hmem hlt
      rw [List.foldl_cons]
      rcases List.mem_cons.mp hmem with heq | htail
      · subst heq
        rw [l5 i' hni, getNode_modifyNode_self _ _ _ hlt]
        refine ⟨r.k, ?_⟩
        have : (⟨r.stream, r.k⟩ : RState) = r := rfl
        rw [this]
      · have hlt' : i' < net'.slipnodes.length := by rw [hlen']; exact hlt
        obtain ⟨k, hk⟩ := l6 i' htail hlt'
        refine ⟨k, ?_⟩
        rw [hk]
        have hstream : nr.2.stream = r.stream := integrateNode_stream _ _
        rw [hstream]
        by_cases hii : i' = i
        · subst hii
          exact absurd htail hni
        · rw [getNode_modifyNode_ne _ _ _ _ hii]

lemma integratePhase_char (net : Slipnet) (r : RState) :
    (integratePhase net r).1.slipnodes.length = net.slipnodes.length ∧
    (integratePhase net r).1.number_of_updates = net.number_of_updates ∧
    (integratePhase net r).1.initially_clamped_slipnodes = net.initially_clamped_slipnodes ∧
    (∀ i, i < net.slipnodes.length →
      ∃ k, getNode (integratePhase net r).1 i
        = (integrateNode (getNode net i) ⟨r.stream, k⟩).1) := by
  obtain ⟨l1, l2, l3, _, _, l6⟩ :=
    integrate_fold_char (List.range net.slipnodes.length) net r (List.nodup_range _)
  exact ⟨l1, l2, l3, fun i hi => l6 i (List.mem_range.mpr hi) hi⟩

end Copycat

namespace Copycat

lemma modifyFold_length (f : Slipnode → Slipnode) :
    ∀ (lst : List ℕ) (net : Slipnet),
      ((lst.foldl (fun acc i => modifyNode acc i f) net)).slipnodes.length
        = net.slipnodes.length := by
  intro lst
  induction lst with
  | nil => intro net; rfl
  | cons i lst ih =>
    intro net
    rw [List.foldl_cons, ih, modifyNode_length]

lemma modifyFold_counter (f : Slipnode → Slipnode) :
    ∀ (lst : List ℕ) (net : Slipnet),
      ((lst.foldl (fun acc i => modifyNode acc i f) net)).number_of_updates
        = net.number_of_updates := by
  intro lst
  induction lst with
  | nil => intro net; rfl
  | cons i lst ih =>
    intro net
    rw [List.foldl_cons, ih, modifyNode_counter]

lemma modifyFold_initially (f : Slipnode → Slipnode) :
    ∀ (lst : List ℕ) (net : Slipnet),
      ((lst.foldl (fun acc i => modifyNode acc i f) net)).initially_clamped_slipnodes
        = net.initially_clamped_slipnodes := by
  intro lst
  induction lst with
  | nil => intro net; rfl
  | cons i lst ih =>
    intro net
    rw [List.foldl_cons, ih, modifyNode_initially]

lemma modifyFold_getNode_notMem (f : Slipnode → Slipnode) :
    ∀ (lst : List ℕ) (net : Slipnet) (j : ℕ), j ∉ lst →
      getNode (lst.foldl (fun acc i => modifyNode acc i f) net) j = getNode net j := by
  intro lst
  induction lst with
  | nil => intro net j _; rfl
  | cons i lst ih =>
    intro net j hj
    rw [List.foldl_cons, ih _ j (fun h => hj (List.mem_cons_of_mem i h)),
        getNode_modifyNode_ne _ _ _ _ (fun h => hj (by rw [h]; exact List.mem_cons_self i lst))]

lemma modifyFold_getNode_mem (f : Slipnode → Slipnode) (hf : ∀ n, f (f n) = f n) :
    ∀ (lst : List ℕ) (net : Slipnet) (j : ℕ), j ∈ lst → j < net.slipnodes.length →
      getNode (lst.foldl (fun acc i => modifyNode acc i f) net) j = f (getNode net j) := by
  intro lst
  induction lst with
  | nil => intro net j hj; exact absurd hj (by simp)
  | cons i lst ih =>
    intro net j hj hlt
    rw [List.foldl_cons]
    by_cases hji : j = i
    · subst hji
      by_cases hmem : j ∈ lst
      · rw [ih _ j hmem (by rw [modifyNode_length]; exact hlt),
            getNode_modifyNode_self _ _ _ hlt, hf]
      · rw [modifyFold_getNode_notMem f lst _ j hmem,
            getNode_modifyNode_self _ _ _ hlt]
    · have hmem : j ∈ lst := by
        rcases List.mem_cons.mp hj with h | h
        · exact absurd h hji
        · exact h
      by_cases hji' : j ∈ lst
      · rw [ih _ j hji' (by rw [modifyNode_length]; exact hlt),
            getNode_modifyNode_ne _ _ _ _ hji]
      · exact absurd hmem hji'

lemma tickBookkeeping_counter (net : Slipnet) :
    (tickBookkeeping net).number_of_updates = net.number_of_updates + 1 := by
  unfold tickBookkeeping
  by_cases h : net.number_of_updates + 1 = 50
  · simp only [h, if_true]
    rw [modifyFold_counter]
  · simp only [if_neg h]

lemma tickBookkeeping_length (net : Slipnet) :
    (tickBookkeeping net).slipnodes.length = net.slipnodes.length := by
  unfold tickBookkeeping
  by_cases h : net.number_of_updates + 1 = 50
  · simp only [h, if_true]
    rw [modifyFold_length]
  · simp only [if_neg h]

lemma tickBookkeeping_initially (net : Slipnet) :
    (tickBookkeeping net).initially_clamped_slipnodes = net.initially_clamped_slipnodes := by
  unfold tickBookkeeping
  by_cases h : net.number_of_updates + 1 = 50
  · simp only [h, if_true]
    rw [modifyFold_initially]
  · simp only [if_neg h]

lemma tickBookkeeping_getNode_off (net : Slipnet) (i : ℕ)
    (h : ¬(net.number_of_updates + 1 = 50 ∧ i ∈ net.initially_clamped_slipnodes)) :
    getNode (tickBookkeeping net) i = getNode net i := by
  unfold tickBookkeeping
  by_cases h50 : net.number_of_updates + 1 = 50
  · have hmem : i ∉ net.initially_clamped_slipnodes := fun hm => h ⟨h50, hm⟩
    simp only [h50, if_true]
    exact modifyFold_getNode_notMem _ _ _ _ hmem
  · simp only [if_neg h50]
    rfl

lemma tickBookkeeping_getNode_unclamp (net : Slipnet) (i : ℕ)
    (h50 : net.number_of_updates + 1 = 50) (hmem : i ∈ net.initially_clamped_slipnodes)
    (hlt : i < net.slipnodes.length) :
    getNode (tickBookkeeping net) i = Slipnode.unclamp (getNode net i) := by
  unfold tickBookkeeping
  simp only [h50, if_true]
  exact modifyFold_getNode_mem Slipnode.unclamp (fun n => rfl) _ _ i hmem hlt

lemma update_length (net : Slipnet) (r : RState) :
    (net.update r).1.slipnodes.length = net.slipnodes.length := by
  unfold Slipnet.update
  rw [(integratePhase_char _ _).1, (spreadPhase_eqbb _).2.2.1, decayPhase_length,
      tickBookkeeping_length]

lemma update_counter (net : Slipnet) (r : RState) :
    (net.update r).1.number_of_updates = net.number_of_updates + 1 := by
  unfold Slipnet.update
  rw [(integratePhase_char _ _).2.1, (spreadPhase_eqbb _).1, decayPhase_counter,
      tickBookkeeping_counter]

lemma update_initially (net : Slipnet) (r : RState) :
    (net.update r).1.initially_clamped_slipnodes = net.initially_clamped_slipnodes := by
  unfold Slipnet.update
  rw [(integratePhase_char _ _).2.2.1, (spreadPhase_eqbb _).2.1, decayPhase_initially,
      tickBookkeeping_initially]

/-- The full extensional characterization of one tick: node `i` of the
updated net is obtained from its pre-tick state (after the counter/unclamp
bookkeeping) by the decay formula, plus the spread receipts collected from
the pre-tick activations, then integrated (an unclamped node adds its
buffer; every node clamps activation into `[0, 100]`, may jump, and zeroes
its buffer). -/
lemma update_getNode_char (net : Slipnet) (r : RState) (i : ℕ)
    (hi : i < net.slipnodes.length) :
    ∃ k, getNode (net.update r).1 i
      = (integrateNode
          { getNode (tickBookkeeping net) i with
            old_activation := some (getNode (tickBookkeeping net) i).activation,
            buffer := (getNode (tickBookkeeping net) i).buffer
              - (getNode (tickBookkeeping net) i).activation
                  * (100 - (getNode (tickBookkeeping net) i).conceptual_depth) / 100
              + spreadReceipts (tickBookkeeping net) i }
          ⟨r.stream, k⟩).1 := by
  unfold Slipnet.update
  have hiA : i < (tickBookkeeping net).slipnodes.length := by
    rw [tickBookkeeping_length]; exact hi
  have hiD : i < (decayPhase (tickBookkeeping net)).slipnodes.length := by
    rw [decayPhase_length]; exact hiA
  have hiS : i < (spreadPhase (decayPhase (tickBookkeeping net))).slipnodes.length := by
    rw [(spreadPhase_eqbb _).2.2.1]; exact hiD
  obtain ⟨k, hk⟩ := (integratePhase_char (spreadPhase (decayPhase (tickBookkeeping net))) r).2.2.2 i hiS
  refine ⟨k, ?_⟩
  rw [hk, spreadPhase_getNode _ _ hiD, decayPhase_getNode _ _ hiA,
      spreadReceipts_decayPhase]
  rfl

lemma update_buffer_zero (net : Slipnet) (r : RState) (j : ℕ)
    (hj : j < net.slipnodes.length) :
    (getNode (net.update r).1 j).buffer = 0 := by
  unfold Slipnet.update
  have hjS : j < (spreadPhase (decayPhase (tickBookkeeping net))).slipnodes.length := by
    rw [(spreadPhase_eqbb _).2.2.1, decayPhase_length, tickBookkeeping_length]; exact hj
  obtain ⟨k, hk⟩ := (integratePhase_char (spreadPhase (decayPhase (tickBookkeeping net))) r).2.2.2 j hjS
  rw [hk, integrateNode_buffer]

end Copycat

namespace Copycat

/-- C1 counterexample: a clamped node (here at activation 100, conceptual
depth 20, so its decayed buffer is −80) does not integrate its buffer —
update leaves its activation at 100, while unconditional integration would
give 20. -/
theorem update_integrate_counterexample :
    (getNode netClampedEx 0).clamped = true ∧
    (getNode (netClampedEx.update rEx).1 0).activation = 100 ∧
    min (max 0 ((getNode netClampedEx 0).activation
        + ((getNode netClampedEx 0).buffer
           - (getNode netClampedEx 0).activation
               * (100 - (getNode netClampedEx 0).conceptual_depth) / 100
           + spreadReceipts (tickBookkeeping netClampedEx) 0))) 100 = 20 ∧
    (100 : ℚ) ≠ 20 := by
  have hlen : (0:ℕ) < netClampedEx.slipnodes.length := by decide
  have hoff : getNode (tickBookkeeping netClampedEx) 0 = getNode netClampedEx 0 :=
    tickBookkeeping_getNode_off _ _ (by simp [netClampedEx])
  have hnode : getNode netClampedEx 0
      = { (Slipnode.make 20 0) with activation := 100, clamped := true } := rfl
  have hrec : spreadReceipts (tickBookkeeping netClampedEx) 0 = 0 := by
    have : tickBookkeeping netClampedEx
        = { netClampedEx with number_of_updates := 4 } := by
      unfold tickBookkeeping
      norm_num [netClampedEx]
    rw [this]
    norm_num [spreadReceipts, netClampedEx, Slipnode.make]
  refine ⟨rfl, ?_, ?_, by norm_num⟩
  · obtain ⟨k, hk⟩ := update_getNode_char netClampedEx rEx 0 hlen
    rw [hk, hoff, hnode]
    norm_num [integrateNode, Slipnode.add_buffer, Slipnode.jump, Slipnode.make]
  · rw [hnode, hrec]
    norm_num [Slipnode.make]

/-- C1 (amended): one tick advances the counter by one and proceeds in
three network-wide phases — every node's buffer decays by
`activation × (100 − conceptual_depth) / 100`, then every fully active
node's outgoing links deposit their intrinsic degrees of association in the
destination buffers (all read from pre-tick activations), then every node
integrates: an *unclamped* node adds its buffer to its activation, every
node clamps activation into `[0, 100]`, may probabilistically jump, and
zeroes its buffer. -/
theorem update_three_phases (net : Slipnet) (r : RState) (i : ℕ)
    (hi : i < net.slipnodes.length) :
    (net.update r).1.number_of_updates = net.number_of_updates + 1 ∧
    (∀ j, j < net.slipnodes.length → (getNode (net.update r).1 j).buffer = 0) ∧
    ∃ k, getNode (net.update r).1 i
      = (integrateNode
          { getNode (tickBookkeeping net) i with
            old_activation := some (getNode (tickBookkeeping net) i).activation,
            buffer := (getNode (tickBookkeeping net) i).buffer
              - (getNode (tickBookkeeping net) i).activation
                  * (100 - (getNode (tickBookkeeping net) i).conceptual_depth) / 100
              + spreadReceipts (tickBookkeeping net) i }
          ⟨r.stream, k⟩).1 :=
  ⟨update_counter net r, fun j hj => update_buffer_zero net r j hj,
   update_getNode_char net r i hi⟩

/-- Witness for C1 at the concrete three-node net `netSpreadEx`. -/
theorem update_three_phases_witness :
    0 < netSpreadEx.slipnodes.length ∧
    ((netSpreadEx.update rEx).1.number_of_updates = netSpreadEx.number_of_updates + 1 ∧
     (∀ j, j < netSpreadEx.slipnodes.length → (getNode (netSpreadEx.update rEx).1 j).buffer = 0) ∧
     ∃ k, getNode (netSpreadEx.update rEx).1 0
       = (integrateNode
           { getNode (tickBookkeeping netSpreadEx) 0 with
             old_activation := some (getNode (tickBookkeeping netSpreadEx) 0).activation,
             buffer := (getNode (tickBookkeeping netSpreadEx) 0).buffer
               - (getNode (tickBookkeeping netSpreadEx) 0).activation
                   * (100 - (getNode (tickBookkeeping netSpreadEx) 0).conceptual_depth) / 100
               + spreadReceipts (tickBookkeeping netSpreadEx) 0 }
           ⟨rEx.stream, k⟩).1) :=
  ⟨by decide, update_three_phases netSpreadEx rEx 0 (by decide)⟩

/-- C2 counterexample: node 1 (itself fully active) receives spread along a
label-80 link: the code adds `100 − 80 = 20`, not the claim's
`100 − shrunk = 68`. -/
theorem spread_shrunk_counterexample :
    (getNode netSpreadEx 1).fully_active ∧
    (getNode netSpreadEx 0).fully_active ∧
    (getNode (spreadPhase netSpreadEx) 1).buffer = 20 ∧
    100 - (getNode netSpreadEx 2).shrunk_link_length = 68 ∧
    (20 : ℚ) ≠ 68 := by
  refine ⟨?_, ?_, ?_, ?_, by norm_num⟩
  · show (100:ℚ) - 1 / 100000 < (getNode netSpreadEx 1).activation
    norm_num [getNode, netSpreadEx, dstEx, Slipnode.make]
  · show (100:ℚ) - 1 / 100000 < (getNode netSpreadEx 0).activation
    norm_num [getNode, netSpreadEx, srcEx, Slipnode.make]
  · rw [spreadPhase_buffer netSpreadEx 1 (by decide)]
    norm_num [spreadReceipts, netSpreadEx, srcEx, dstEx, lblEx, linkEx,
              Slipnode.make, getNode, Sliplink.intrinsic_degree_of_association,
              Slipnode.fully_active, List.filter]
  · norm_num [getNode, netSpreadEx, lblEx, Slipnode.make]

/-- C2 (amended): during the spread phase each node's buffer grows by
exactly its spread receipts — `100 − fixed_length` when the link's fixed
length exceeds 1, else `100 −` the label's *intrinsic* link length, else
0, from every fully active source — and the amount deposited along a link
is independent of the destination node's activation. -/
theorem spread_phase_amended (net : Slipnet) (i : ℕ) (hi : i < net.slipnodes.length) :
    getNode (spreadPhase net) i
      = { getNode net i with buffer := (getNode net i).buffer + spreadReceipts net i } ∧
    ∀ (l : Sliplink) (d : ℕ) (a : ℚ),
      Sliplink.intrinsic_degree_of_association
          (modifyNode net d (fun n => { n with activation := a })) l
        = Sliplink.intrinsic_degree_of_association net l := by
  refine ⟨spreadPhase_getNode net i hi, ?_⟩
  intro l d a
  unfold Sliplink.intrinsic_degree_of_association
  cases hl : l.label with
  | none => rfl
  | some lab =>
    have hlen : (getNode (modifyNode net d (fun n => { n with activation := a })) lab).intrinsic_link_length
        = (getNode net lab).intrinsic_link_length := by
      by_cases hld : lab = d
      · subst hld
        by_cases hr : lab < net.slipnodes.length
        · rw [getNode_modifyNode_self _ _ _ hr]
        · rw [modifyNode_oob _ _ _ hr]
      · rw [getNode_modifyNode_ne _ _ _ _ hld]
    simp only [hlen]

/-- Witness for C2 at the concrete three-node net `netSpreadEx`. -/
theorem spread_phase_amended_witness :
    1 < netSpreadEx.slipnodes.length ∧
    (getNode (spreadPhase netSpreadEx) 1
      = { getNode netSpreadEx 1 with
          buffer := (getNode netSpreadEx 1).buffer + spreadReceipts netSpreadEx 1 } ∧
     ∀ (l : Sliplink) (d : ℕ) (a : ℚ),
       Sliplink.intrinsic_degree_of_association
           (modifyNode netSpreadEx d (fun n => { n with activation := a })) l
         = Sliplink.intrinsic_degree_of_association netSpreadEx l) :=
  ⟨by decide, spread_phase_amended netSpreadEx 1 (by decide)⟩

end Copycat

namespace Copycat

lemma iterateUpdate_succ_end (n : ℕ) :
    ∀ p : Slipnet × RState,
      iterateUpdate (n + 1) p = (iterateUpdate n p).1.update (iterateUpdate n p).2 := by
  induction n with
  | zero => intro p; rfl
  | succ n ih =>
    intro p
    show iterateUpdate (n + 1) (p.1.update p.2) = _
    rw [ih (p.1.update p.2)]
    rfl

lemma integrateNode_activation_clamped (n : Slipnode) (r : RState)
    (hcl : n.clamped = true) (h0 : 0 ≤ n.activation) (h100 : n.activation ≤ 100) :
    (integrateNode n r).1.activation = n.activation := by
  simp only [integrateNode, Slipnode.add_buffer, Slipnode.jump, RState.coin_flip, hcl,
             if_true, true_or]
  rw [max_eq_right h0, min_eq_left h100]

lemma reset_counter (net : Slipnet) : net.reset.number_of_updates = 0 := by
  unfold Slipnet.reset
  rw [modifyFold_counter]

lemma reset_length (net : Slipnet) : net.reset.slipnodes.length = net.slipnodes.length := by
  unfold Slipnet.reset
  rw [modifyFold_length]
  simp

lemma reset_initially (net : Slipnet) :
    net.reset.initially_clamped_slipnodes = net.initially_clamped_slipnodes := by
  unfold Slipnet.reset
  rw [modifyFold_initially]

lemma reset_apriori (net : Slipnet) (i : ℕ) (hi : i < net.slipnodes.length)
    (hmem : i ∈ net.initially_clamped_slipnodes) :
    (getNode net.reset i).clamped = true ∧ (getNode net.reset i).activation = 100 := by
  unfold Slipnet.reset
  rw [modifyFold_getNode_mem Slipnode.clamp_high (fun n => rfl) _ _ i hmem (by simpa using hi)]
  exact ⟨rfl, rfl⟩

lemma update_preserves_clamped (net : Slipnet) (r : RState) (i : ℕ)
    (hi : i < net.slipnodes.length)
    (hcl : (getNode net i).clamped = true)
    (h0 : 0 ≤ (getNode net i).activation) (h100 : (getNode net i).activation ≤ 100)
    (hsafe : ¬(net.number_of_updates + 1 = 50 ∧ i ∈ net.initially_clamped_slipnodes)) :
    (getNode (net.update r).1 i).clamped = true ∧
    (getNode (net.update r).1 i).activation = (getNode net i).activation := by
  obtain ⟨k, hk⟩ := update_getNode_char net r i hi
  have hoff := tickBookkeeping_getNode_off net i hsafe
  rw [hk, hoff]
  constructor
  · rw [integrateNode_clamped]
    exact hcl
  · exact integrateNode_activation_clamped _ _ hcl h0 h100

lemma update_unclamps (net : Slipnet) (r : RState) (i : ℕ)
    (hi : i < net.slipnodes.length) (h49 : net.number_of_updates = 49)
    (hmem : i ∈ net.initially_clamped_slipnodes) :
    (getNode (net.update r).1 i).clamped = false := by
  obtain ⟨k, hk⟩ := update_getNode_char net r i hi
  rw [hk, integrateNode_clamped]
  show (getNode (tickBookkeeping net) i).clamped = false
  rw [tickBookkeeping_getNode_unclamp net i (by omega) hmem hi]
  rfl

lemma iterate_apriori (net : Slipnet) (r : RState) (i : ℕ)
    (hi : i < net.slipnodes.length) (hmem : i ∈ net.initially_clamped_slipnodes) :
    ∀ n, n ≤ 49 →
      (iterateUpdate n (net.reset, r)).1.number_of_updates = n ∧
      (iterateUpdate n (net.reset, r)).1.slipnodes.length = net.slipnodes.length ∧
      (iterateUpdate n (net.reset, r)).1.initially_clamped_slipnodes
        = net.initially_clamped_slipnodes ∧
      (getNode (iterateUpdate n (net.reset, r)).1 i).clamped = true ∧
      (getNode (iterateUpdate n (net.reset, r)).1 i).activation = 100 := by
  intro n
  induction n with
  | zero =>
    intro _
    exact ⟨reset_counter net, reset_length net, reset_initially net,
           (reset_apriori net i hi hmem).1, (reset_apriori net i hi hmem).2⟩
  | succ n ih =>
    intro hle
    obtain ⟨hc, hl, hini, hclamp, hact⟩ := ih (by omega)
    rw [iterateUpdate_succ_end]
    set s := iterateUpdate n (net.reset, r)
    have hi' : i < s.1.slipnodes.length := by rw [hl]; exact hi
    have hsafe : ¬(s.1.number_of_updates + 1 = 50 ∧ i ∈ s.1.initially_clamped_slipnodes) := by
      rw [hc]
      exact fun h => absurd h.1 (by omega)
    obtain ⟨c1, c2⟩ := update_preserves_clamped s.1 s.2 i hi' hclamp
      (by rw [hact]; norm_num) (by rw [hact]) hsafe
    refine ⟨?_, ?_, ?_, c1, ?_⟩
    · rw [update_counter, hc]
    · rw [update_length, hl]
    · rw [update_initially, hini]
    · rw [c2, hact]

lemma iterate_other_clamped (net : Slipnet) (r : RState) (j : ℕ)
    (hj : j < net.slipnodes.length)
    (hcl : (getNode net j).clamped = true)
    (hnm : j ∉ net.initially_clamped_slipnodes)
    (h0 : 0 ≤ (getNode net j).activation) (h100 : (getNode net j).activation ≤ 100) :
    ∀ n,
      (iterateUpdate n (net, r)).1.slipnodes.length = net.slipnodes.length ∧
      (iterateUpdate n (net, r)).1.initially_clamped_slipnodes
        = net.initially_clamped_slipnodes ∧
      (getNode (iterateUpdate n (net, r)).1 j).clamped = true ∧
      (getNode (iterateUpdate n (net, r)).1 j).activation = (getNode net j).activation := by
  intro n
  induction n with
  | zero => exact ⟨rfl, rfl, hcl, rfl⟩
  | succ n ih =>
    obtain ⟨hl, hini, hclamp, hact⟩ := ih
    rw [iterateUpdate_succ_end]
    set s := iterateUpdate n (net, r)
    have hj' : j < s.1.slipnodes.length := by rw [hl]; exact hj
    have hsafe : ¬(s.1.number_of_updates + 1 = 50 ∧ j ∈ s.1.initially_clamped_slipnodes) := by
      rw [hini]
      intro h
      exact hnm h.2
    obtain ⟨c1, c2⟩ := update_preserves_clamped s.1 s.2 j hj' hclamp
      (by rw [hact]; exact h0) (by rw [hact]; exact h100) hsafe
    refine ⟨?_, ?_, c1, ?_⟩
    · rw [update_length, hl]
    · rw [update_initially, hini]
    · rw [c2, hact]

/-- C5: after a reset, an a-priori clamped node stays clamped at
activation 100 through the first 49 updates; the 50th update unclamps it;
and any clamped node outside the a-priori list keeps its activation across
any number of updates. -/
theorem clamped_node_invariants (net : Slipnet) (r : RState) (i : ℕ)
    (hi : i < net.slipnodes.length) (hmem : i ∈ net.initially_clamped_slipnodes) :
    (∀ n, n ≤ 49 →
      (getNode (iterateUpdate n (net.reset, r)).1 i).clamped = true ∧
      (getNode (iterateUpdate n (net.reset, r)).1 i).activation = 100) ∧
    (getNode (iterateUpdate 50 (net.reset, r)).1 i).clamped = false ∧
    (∀ (net2 : Slipnet) (r2 : RState) (j : ℕ), j < net2.slipnodes.length →
      (getNode net2 j).clamped = true → j ∉ net2.initially_clamped_slipnodes →
      0 ≤ (getNode net2 j).activation → (getNode net2 j).activation ≤ 100 →
      ∀ n, (getNode (iterateUpdate n (net2, r2)).1 j).clamped = true ∧
           (getNode (iterateUpdate n (net2, r2)).1 j).activation
             = (getNode net2 j).activation) := by
  refine ⟨?_, ?_, ?_⟩
  · intro n hn
    obtain ⟨_, _, _, h4, h5⟩ := iterate_apriori net r i hi hmem n hn
    exact ⟨h4, h5⟩
  · obtain ⟨hc, hl, hini, hclamp, hact⟩ := iterate_apriori net r i hi hmem 49 (by omega)
    rw [show (50:ℕ) = 49 + 1 from rfl, iterateUpdate_succ_end]
    set s := iterateUpdate 49 (net.reset, r)
    exact update_unclamps s.1 s.2 i (by rw [hl]; exact hi) hc (by rw [hini]; exact hmem)
  · intro net2 r2 j hj hcl hnm h0 h100 n
    obtain ⟨_, _, h3, h4⟩ := iterate_other_clamped net2 r2 j hj hcl hnm h0 h100 n
    exact ⟨h3, h4⟩

/-- Witness for C5 at the concrete two-node net `netResetEx`. -/
theorem clamped_node_invariants_witness :
    0 < netResetEx.slipnodes.length ∧
    0 ∈ netResetEx.initially_clamped_slipnodes ∧
    ((∀ n, n ≤ 49 →
      (getNode (iterateUpdate n (netResetEx.reset, rEx)).1 0).clamped = true ∧
      (getNode (iterateUpdate n (netResetEx.reset, rEx)).1 0).activation = 100) ∧
    (getNode (iterateUpdate 50 (netResetEx.reset, rEx)).1 0).clamped = false ∧
    (∀ (net2 : Slipnet) (r2 : RState) (j : ℕ), j < net2.slipnodes.length →
      (getNode net2 j).clamped = true → j ∉ net2.initially_clamped_slipnodes →
      0 ≤ (getNode net2 j).activation → (getNode net2 j).activation ≤ 100 →
      ∀ n, (getNode (iterateUpdate n (net2, r2)).1 j).clamped = true ∧
           (getNode (iterateUpdate n (net2, r2)).1 j).activation
             = (getNode net2 j).activation)) :=
  ⟨by decide, by decide, clamped_node_invariants netResetEx rEx 0 (by decide) (by decide)⟩

end Copycat

namespace Copycat

lemma objReduces_refl (o : ObjData) : ObjReduces o o :=
  ⟨Or.inl rfl, Or.inl rfl, Or.inl rfl, Or.inl rfl, List.Sublist.refl _, rfl, rfl⟩

lemma objReduces_clear_corr (o : ObjData) :
    ObjReduces { o with correspondence := none } o :=
  ⟨Or.inl rfl, Or.inr rfl, Or.inl rfl, Or.inl rfl, List.Sublist.refl _, rfl, rfl⟩

lemma objReduces_clear_left (o : ObjData) :
    ObjReduces { o with leftBond := none } o :=
  ⟨Or.inl rfl, Or.inl rfl, Or.inr rfl, Or.inl rfl, List.Sublist.refl _, rfl, rfl⟩

lemma objReduces_clear_right (o : ObjData) :
    ObjReduces { o with rightBond := none } o :=
  ⟨Or.inl rfl, Or.inl rfl, Or.inl rfl, Or.inr rfl, List.Sublist.refl _, rfl, rfl⟩

lemma objReduces_clear_group (o : ObjData) :
    ObjReduces { o with group := none } o :=
  ⟨Or.inr rfl, Or.inl rfl, Or.inl rfl, Or.inl rfl, List.Sublist.refl _, rfl, rfl⟩

lemma objReduces_erase_desc (o : ObjData) (d : ℕ) :
    ObjReduces { o with descriptions := o.descriptions.erase d } o :=
  ⟨Or.inl rfl, Or.inl rfl, Or.inl rfl, Or.inl rfl, List.erase_sublist _ _, rfl, rfl⟩

lemma reduces_erase_structures (s : Workspace) (c : ℕ) :
    Reduces { s with structures := s.structures.erase c } s :=
  ⟨List.erase_sublist _ _, List.Sublist.refl _, fun _ => List.Sublist.refl _,
   fun _ => objReduces_refl _, rfl, rfl, rfl⟩

lemma ObjReduces.compose {o p q : ObjData} (h1 : ObjReduces o p) (h2 : ObjReduces p q) :
    ObjReduces o q := by
  refine ⟨?_, ?_, ?_, ?_, h1.descs.trans h2.descs,
          h1.stringId_eq.trans h2.stringId_eq, h1.children_eq.trans h2.children_eq⟩
  · rcases h1.group_or with h | h
    · rw [h]; exact h2.group_or
    · exact Or.inr h
  · rcases h1.corr_or with h | h
    · rw [h]; exact h2.corr_or
    · exact Or.inr h
  · rcases h1.left_or with h | h
    · rw [h]; exact h2.left_or
    · exact Or.inr h
  · rcases h1.right_or with h | h
    · rw [h]; exact h2.right_or
    · exact Or.inr h

lemma Reduces.refl (s : Workspace) : Reduces s s :=
  ⟨List.Sublist.refl _, List.Sublist.refl _, fun _ => List.Sublist.refl _,
   fun _ => objReduces_refl _, rfl, rfl, rfl⟩

lemma Reduces.trans {t u s : Workspace} (h1 : Reduces t u) (h2 : Reduces u s) :
    Reduces t s :=
  ⟨h1.structures.trans h2.structures, h1.objects.trans h2.objects,
   fun j => (h1.stringObjects j).trans (h2.stringObjects j),
   fun x => (h1.objData x).compose (h2.objData x),
   h1.bondData.trans h2.bondData, h1.corrData.trans h2.corrData,
   h1.descOwner.trans h2.descOwner⟩

lemma setObj_objData_self (s : Workspace) (i : ℕ) (f : ObjData → ObjData) :
    ((s.setObj i f).objData i) = f (s.objData i) := by
  simp [Workspace.setObj]

lemma setObj_objData_ne (s : Workspace) (i x : ℕ) (f : ObjData → ObjData) (h : x ≠ i) :
    ((s.setObj i f).objData x) = s.objData x := by
  simp [Workspace.setObj, h]

lemma Reduces.setObj (s : Workspace) (i : ℕ) (f : ObjData → ObjData)
    (hf : ∀ o, ObjReduces (f o) o) : Reduces (s.setObj i f) s := by
  refine ⟨List.Sublist.refl _, List.Sublist.refl _, fun _ => List.Sublist.refl _,
          fun x => ?_, rfl, rfl, rfl⟩
  by_cases hx : x = i
  · subst hx
    rw [setObj_objData_self]
    exact hf _
  · rw [setObj_objData_ne _ _ _ _ hx]
    exact objReduces_refl _

lemma breakCorrespondence_reduces (c : ℕ) (s : Workspace) :
    Reduces (breakCorrespondence c s) s := by
  set s1 := { s with structures := s.structures.erase c }
  set s2 := s1.setObj (s.corrData c).1 (fun o => { o with correspondence := none })
  have e1 : Reduces s1 s := reduces_erase_structures s c
  have e2 : Reduces s2 s1 := Reduces.setObj _ _ _ objReduces_clear_corr
  have e3 : Reduces (s2.setObj (s.corrData c).2
      (fun o => { o with correspondence := none })) s2 :=
    Reduces.setObj _ _ _ objReduces_clear_corr
  exact (e3.trans e2).trans e1

lemma breakBond_reduces (b : ℕ) (s : Workspace) :
    Reduces (breakBond b s) s := by
  set s1 := { s with structures := s.structures.erase b }
  set s2 := s1.setObj (s.bondData b).1 (fun o => { o with rightBond := none })
  have e1 : Reduces s1 s := reduces_erase_structures s b
  have e2 : Reduces s2 s1 := Reduces.setObj _ _ _ objReduces_clear_right
  have e3 : Reduces (s2.setObj (s.bondData b).2
      (fun o => { o with leftBond := none })) s2 :=
    Reduces.setObj _ _ _ objReduces_clear_left
  exact (e3.trans e2).trans e1

lemma breakDescription_reduces (d : ℕ) (s : Workspace) :
    Reduces (breakDescription d s) s := by
  set s1 := { s with structures := s.structures.erase d }
  have e1 : Reduces s1 s := reduces_erase_structures s d
  have e2 : Reduces (s1.setObj (s.descOwner d)
        (fun o => { o with descriptions := o.descriptions.erase d })) s1 :=
    Reduces.setObj _ _ _ (fun o => objReduces_erase_desc o d)
  exact e2.trans e1

lemma breakDescriptionsLoop_reduces (g : ℕ) :
    ∀ (fuel : ℕ) (s : Workspace), Reduces (breakDescriptionsLoop g fuel s) s := by
  intro fuel
  induction fuel with
  | zero => intro s; exact Reduces.refl s
  | succ fuel ih =>
    intro s
    unfold breakDescriptionsLoop
    cases hl : ((s.objData g).descriptions).getLast? with
    | none => exact Reduces.refl s
    | some d => exact (ih _).trans (breakDescription_reduces d s)

lemma clearChildren_fold_reduces :
    ∀ (cs : List ℕ) (s : Workspace),
      Reduces (cs.foldl (fun acc c => acc.setObj c (fun o => { o with group := none })) s) s := by
  intro cs
  induction cs with
  | nil => intro s; exact Reduces.refl s
  | cons c cs ih =>
    intro s
    rw [List.foldl_cons]
    exact (ih _).trans (Reduces.setObj s c _ objReduces_clear_group)

lemma severLeftBond_reduces (g : ℕ) (s : Workspace) : Reduces (severLeftBond g s) s := by
  unfold severLeftBond
  cases (s.objData g).leftBond with
  | some b => exact breakBond_reduces b s
  | none => exact Reduces.refl s

lemma severRightBond_reduces (g : ℕ) (s : Workspace) : Reduces (severRightBond g s) s := by
  unfold severRightBond
  cases (s.objData g).rightBond with
  | some b => exact breakBond_reduces b s
  | none => exact Reduces.refl s

lemma breakAllDescriptions_reduces (g : ℕ) (s : Workspace) :
    Reduces (breakAllDescriptions g s) s :=
  breakDescriptionsLoop_reduces g _ s

lemma clearChildrenPointers_reduces (g : ℕ) (s : Workspace) :
    Reduces (clearChildrenPointers g s) s :=
  clearChildren_fold_reduces _ s

lemma removeFromStructures_reduces (g : ℕ) (s : Workspace) :
    Reduces (removeFromStructures g s) s := by
  unfold removeFromStructures
  by_cases hg : g ∈ s.structures
  · rw [if_pos hg]
    exact ⟨List.erase_sublist _ _, List.Sublist.refl _, fun _ => List.Sublist.refl _,
           fun _ => objReduces_refl _, rfl, rfl, rfl⟩
  · rw [if_neg hg]
    exact Reduces.refl s

lemma removeFromObjects_reduces (g : ℕ) (s : Workspace) :
    Reduces (removeFromObjects g s) s := by
  unfold removeFromObjects
  by_cases hg : g ∈ s.objects
  · rw [if_pos hg]
    exact ⟨List.Sublist.refl _, List.erase_sublist _ _, fun _ => List.Sublist.refl _,
           fun _ => objReduces_refl _, rfl, rfl, rfl⟩
  · rw [if_neg hg]
    exact Reduces.refl s

lemma removeFromString_reduces (g : ℕ) (s : Workspace) :
    Reduces (removeFromString g s) s := by
  unfold removeFromString
  by_cases hg : g ∈ s.stringObjects ((s.objData g).stringId)
  · rw [if_pos hg]
    refine ⟨List.Sublist.refl _, List.Sublist.refl _, fun j => ?_,
            fun _ => objReduces_refl _, rfl, rfl, rfl⟩
    by_cases hj : j = (s.objData g).stringId
    · simp only [hj, if_true]
      exact List.erase_sublist _ _
    · simp only [hj, if_false]
      exact List.Sublist.refl _
  · rw [if_neg hg]
    exact Reduces.refl s

lemma breakGroupCore_reduces (g : ℕ) (s2 : Workspace) :
    Reduces (breakGroupCore g s2) s2 := by
  unfold breakGroupCore
  exact ((((((removeFromString_reduces g _).trans
    (removeFromObjects_reduces g _)).trans
    (removeFromStructures_reduces g _)).trans
    (clearChildrenPointers_reduces g _)).trans
    (breakAllDescriptions_reduces g _)).trans
    (severRightBond_reduces g _)).trans (severLeftBond_reduces g s2)

lemma breakCorrStage_reduces (g : ℕ) (s : Workspace) :
    Reduces (breakCorrStage g s) s := by
  unfold breakCorrStage
  cases (s.objData g).correspondence with
  | some c => exact breakCorrespondence_reduces c s
  | none => exact Reduces.refl s

lemma breakGroup_reduces :
    ∀ (fuel g : ℕ) (s : Workspace), Reduces (breakGroup fuel g s) s := by
  intro fuel
  induction fuel with
  | zero =>
    intro g s
    exact (breakGroupCore_reduces g _).trans (breakCorrStage_reduces g s)
  | succ fuel ih =>
    intro g s
    show Reduces (breakGroupCore g _) s
    refine (breakGroupCore_reduces g _).trans ?_
    have h2 : Reduces (match ((breakCorrStage g s).objData g).group with
                       | some pg => breakGroup fuel pg (breakCorrStage g s)
                       | none => breakCorrStage g s) (breakCorrStage g s) := by
      cases ((breakCorrStage g s).objData g).group with
      | some pg => exact ih pg (breakCorrStage g s)
      | none => exact Reduces.refl (breakCorrStage g s)
    exact h2.trans (breakCorrStage_reduces g s)

end Copycat

namespace Copycat

lemma Reduces.left_none {t s : Workspace} (h : Reduces t s) (x : ℕ)
    (hn : (s.objData x).leftBond = none) : (t.objData x).leftBond = none := by
  rcases (h.objData x).left_or with he | he
  · rw [he, hn]
  · exact he

lemma Reduces.right_none {t s : Workspace} (h : Reduces t s) (x : ℕ)
    (hn : (s.objData x).rightBond = none) : (t.objData x).rightBond = none := by
  rcases (h.objData x).right_or with he | he
  · rw [he, hn]
  · exact he

lemma Reduces.corr_none {t s : Workspace} (h : Reduces t s) (x : ℕ)
    (hn : (s.objData x).correspondence = none) : (t.objData x).correspondence = none := by
  rcases (h.objData x).corr_or with he | he
  · rw [he, hn]
  · exact he

lemma Reduces.group_none {t s : Workspace} (h : Reduces t s) (x : ℕ)
    (hn : (s.objData x).group = none) : (t.objData x).group = none := by
  rcases (h.objData x).group_or with he | he
  · rw [he, hn]
  · exact he

lemma Reduces.descs_nil {t s : Workspace} (h : Reduces t s) (x : ℕ)
    (hn : (s.objData x).descriptions = []) : (t.objData x).descriptions = [] := by
  have := (h.objData x).descs
  rw [hn] at this
  exact List.sublist_nil.mp this

lemma Reduces.notMem_structures {t s : Workspace} (h : Reduces t s) {x : ℕ}
    (hn : x ∉ s.structures) : x ∉ t.structures :=
  fun hm => hn (h.structures.subset hm)

lemma Reduces.notMem_objects {t s : Workspace} (h : Reduces t s) {x : ℕ}
    (hn : x ∉ s.objects) : x ∉ t.objects :=
  fun hm => hn (h.objects.subset hm)

lemma Reduces.notMem_stringObjects {t s : Workspace} (h : Reduces t s) {x j : ℕ}
    (hn : x ∉ s.stringObjects j) : x ∉ t.stringObjects j :=
  fun hm => hn ((h.stringObjects j).subset hm)

lemma notMem_of_erase_count_le_one {L : List ℕ} {g : ℕ} (h : L.count g ≤ 1) :
    g ∉ L.erase g := by
  intro hm
  have hc := List.count_erase_self g L
  have hpos : 0 < (L.erase g).count g := List.count_pos_iff.mpr hm
  omega

lemma removeFromStructures_notMem (g : ℕ) (s : Workspace)
    (h : s.structures.count g ≤ 1) : g ∉ (removeFromStructures g s).structures := by
  unfold removeFromStructures
  by_cases hg : g ∈ s.structures
  · rw [if_pos hg]
    exact notMem_of_erase_count_le_one h
  · rw [if_neg hg]
    exact hg

lemma removeFromObjects_notMem (g : ℕ) (s : Workspace)
    (h : s.objects.count g ≤ 1) : g ∉ (removeFromObjects g s).objects := by
  unfold removeFromObjects
  by_cases hg : g ∈ s.objects
  · rw [if_pos hg]
    exact notMem_of_erase_count_le_one h
  · rw [if_neg hg]
    exact hg

lemma removeFromString_notMem (g : ℕ) (s : Workspace)
    (h : (s.stringObjects ((s.objData g).stringId)).count g ≤ 1) :
    g ∉ (removeFromString g s).stringObjects ((s.objData g).stringId) := by
  unfold removeFromString
  by_cases hg : g ∈ s.stringObjects ((s.objData g).stringId)
  · rw [if_pos hg]
    simp only [if_pos rfl]
    exact notMem_of_erase_count_le_one h
  · rw [if_neg hg]
    exact hg

lemma removeFromStructures_objData (g : ℕ) (s : Workspace) :
    (removeFromStructures g s).objData = s.objData := by
  unfold removeFromStructures
  split <;> rfl

lemma removeFromObjects_objData (g : ℕ) (s : Workspace) :
    (removeFromObjects g s).objData = s.objData := by
  unfold removeFromObjects
  split <;> rfl

lemma removeFromString_objData (g : ℕ) (s : Workspace) :
    (removeFromString g s).objData = s.objData := by
  unfold removeFromString
  split <;> rfl

lemma removeFromObjects_structures (g : ℕ) (s : Workspace) :
    (removeFromObjects g s).structures = s.structures := by
  unfold removeFromObjects
  split <;> rfl

lemma removeFromString_structures (g : ℕ) (s : Workspace) :
    (removeFromString g s).structures = s.structures := by
  unfold removeFromString
  split <;> rfl

lemma removeFromString_objects (g : ℕ) (s : Workspace) :
    (removeFromString g s).objects = s.objects := by
  unfold removeFromString
  split <;> rfl

lemma removeFromStructures_stringObjects (g : ℕ) (s : Workspace) :
    (removeFromStructures g s).stringObjects = s.stringObjects := by
  unfold removeFromStructures
  split <;> rfl

lemma removeFromObjects_stringObjects (g : ℕ) (s : Workspace) :
    (removeFromObjects g s).stringObjects = s.stringObjects := by
  unfold removeFromObjects
  split <;> rfl

end Copycat

namespace Copycat

lemma severLeftBond_left_none (g : ℕ) (s : Workspace)
    (hlb : ∀ b, (s.objData g).leftBond = some b → (s.bondData b).2 = g) :
    ((severLeftBond g s).objData g).leftBond = none := by
  unfold severLeftBond
  cases hb : (s.objData g).leftBond with
  | none => exact hb
  | some b =>
    have hg : (s.bondData b).2 = g := hlb b hb
    show ((breakBond b s).objData g).leftBond = none
    unfold breakBond
    simp only []
    rw [hg, setObj_objData_self]

lemma severRightBond_right_none (g : ℕ) (s : Workspace)
    (hrb : ∀ b, (s.objData g).rightBond = some b → (s.bondData b).1 = g) :
    ((severRightBond g s).objData g).rightBond = none := by
  unfold severRightBond
  cases hb : (s.objData g).rightBond with
  | none => exact hb
  | some b =>
    have hg : (s.bondData b).1 = g := hrb b hb
    show ((breakBond b s).objData g).rightBond = none
    unfold breakBond
    simp only []
    by_cases h2 : (s.bondData b).2 = g
    · rw [h2, setObj_objData_self, hg, setObj_objData_self]
    · rw [setObj_objData_ne _ _ _ _ (fun he => h2 he.symm), hg, setObj_objData_self]

lemma breakCorrStage_corr_none (g : ℕ) (s : Workspace)
    (hcorr : ∀ c, (s.objData g).correspondence = some c →
      (s.corrData c).1 = g ∨ (s.corrData c).2 = g) :
    ((breakCorrStage g s).objData g).correspondence = none := by
  unfold breakCorrStage
  cases hc : (s.objData g).correspondence with
  | none => exact hc
  | some c =>
    show ((breakCorrespondence c s).objData g).correspondence = none
    unfold breakCorrespondence
    simp only []
    rcases hcorr c hc with he | he
    · by_cases h2 : (s.corrData c).2 = g
      · rw [h2, setObj_objData_self]
      · rw [setObj_objData_ne _ _ _ _ (fun hx => h2 hx.symm), he, setObj_objData_self]
    · rw [he, setObj_objData_self]

lemma breakDescription_descs (d : ℕ) (s : Workspace) (g : ℕ) (howner : s.descOwner d = g) :
    ((breakDescription d s).objData g).descriptions
      = ((s.objData g).descriptions).erase d := by
  unfold breakDescription
  simp only []
  rw [howner, setObj_objData_self]

lemma breakDescription_descOwner (d : ℕ) (s : Workspace) :
    (breakDescription d s).descOwner = s.descOwner := rfl

lemma breakDescriptionsLoop_empty (g : ℕ) :
    ∀ (fuel : ℕ) (s : Workspace),
      ((s.objData g).descriptions).length = fuel →
      (∀ d ∈ (s.objData g).descriptions, s.descOwner d = g) →
      ((breakDescriptionsLoop g fuel s).objData g).descriptions = [] := by
  intro fuel
  induction fuel with
  | zero =>
    intro s hlen _
    have : (s.objData g).descriptions = [] := List.length_eq_zero.mp hlen
    unfold breakDescriptionsLoop
    exact this
  | succ fuel ih =>
    intro s hlen howner
    have hne : (s.objData g).descriptions ≠ [] := by
      intro h
      rw [h] at hlen
      simp at hlen
    obtain ⟨d, hd⟩ := Option.ne_none_iff_exists'.mp
      (mt List.getLast?_eq_none_iff.mp hne)
    unfold breakDescriptionsLoop
    rw [hd]
    have hmem : d ∈ (s.objData g).descriptions := by
      obtain ⟨hne', he⟩ := List.mem_getLast?_eq_getLast (l := (s.objData g).descriptions) (by rw [hd]; rfl)
      rw [he]
      exact List.getLast_mem hne'
    have hog : s.descOwner d = g := howner d hmem
    have hdescs := breakDescription_descs d s g hog
    apply ih
    · rw [hdescs, List.length_erase_of_mem hmem, hlen]
      omega
    · intro d' hd'
      rw [hdescs] at hd'
      rw [breakDescription_descOwner]
      exact howner d' (List.mem_of_mem_erase hd')

lemma breakAllDescriptions_empty (g : ℕ) (s : Workspace)
    (howner : ∀ d ∈ (s.objData g).descriptions, s.descOwner d = g) :
    ((breakAllDescriptions g s).objData g).descriptions = [] :=
  breakDescriptionsLoop_empty g _ s rfl howner

lemma clearFold_group_none :
    ∀ (cs : List ℕ) (s : Workspace) (c : ℕ), c ∈ cs →
      ((List.foldl (fun (acc : Workspace) (x : ℕ) =>
          acc.setObj x (fun o => { o with group := none })) s cs).objData c).group
        = none := by
  intro cs
  induction cs with
  | nil => intro s c hc; exact absurd hc (by simp)
  | cons x cs ih =>
    intro s c hc
    rw [List.foldl_cons]
    rcases List.mem_cons.mp hc with he | htail
    · subst he
      by_cases hmem : c ∈ cs
      · exact ih _ c hmem
      · refine (clearChildren_fold_reduces cs _).group_none c ?_
        rw [setObj_objData_self]
    · exact ih _ c htail

lemma clearChildrenPointers_group_none (g : ℕ) (s : Workspace) (c : ℕ)
    (hc : c ∈ (s.objData g).children) :
    ((clearChildrenPointers g s).objData c).group = none :=
  clearFold_group_none _ s c hc

end Copycat

namespace Copycat

lemma removeFromStructures_objects (g : ℕ) (s : Workspace) :
    (removeFromStructures g s).objects = s.objects := by
  unfold removeFromStructures
  split <;> rfl

lemma coreStage6_reduces (g : ℕ) (s2 : Workspace) :
    Reduces (clearChildrenPointers g (breakAllDescriptions g
      (severRightBond g (severLeftBond g s2)))) s2 :=
  ((((clearChildrenPointers_reduces g _).trans
    (breakAllDescriptions_reduces g _)).trans
    (severRightBond_reduces g _)).trans (severLeftBond_reduces g s2))

lemma breakGroupCore_structures_notMem (g : ℕ) (s2 : Workspace)
    (hsc : s2.structures.count g ≤ 1) : g ∉ (breakGroupCore g s2).structures := by
  unfold breakGroupCore
  rw [removeFromString_structures, removeFromObjects_structures]
  exact removeFromStructures_notMem g _
    (le_trans ((coreStage6_reduces g s2).structures.count_le g) hsc)

lemma breakGroupCore_objects_notMem (g : ℕ) (s2 : Workspace)
    (hoc : s2.objects.count g ≤ 1) : g ∉ (breakGroupCore g s2).objects := by
  unfold breakGroupCore
  rw [removeFromString_objects]
  refine removeFromObjects_notMem g _ ?_
  rw [removeFromStructures_objects]
  exact le_trans ((coreStage6_reduces g s2).objects.count_le g) hoc

lemma breakGroupCore_string_notMem (g : ℕ) (s2 : Workspace)
    (htc : (s2.stringObjects ((s2.objData g).stringId)).count g ≤ 1) :
    g ∉ (breakGroupCore g s2).stringObjects ((s2.objData g).stringId) := by
  unfold breakGroupCore
  set s6 := clearChildrenPointers g (breakAllDescriptions g
    (severRightBond g (severLeftBond g s2))) with hs6
  set s7 := removeFromStructures g s6 with hs7
  set s8 := removeFromObjects g s7 with hs8
  have hid : (s8.objData g).stringId = (s2.objData g).stringId := by
    rw [hs8, removeFromObjects_objData, hs7, removeFromStructures_objData]
    exact ((coreStage6_reduces g s2).objData g).stringId_eq
  have hcnt : (s8.stringObjects ((s8.objData g).stringId)).count g ≤ 1 := by
    rw [hs8, removeFromObjects_stringObjects, hs7, removeFromStructures_stringObjects,
        removeFromObjects_objData, removeFromStructures_objData]
    rw [show ((s6.objData g).stringId) = ((s2.objData g).stringId) from
      ((coreStage6_reduces g s2).objData g).stringId_eq]
    exact le_trans (((coreStage6_reduces g s2).stringObjects _).count_le g) htc
  have := removeFromString_notMem g s8 hcnt
  rw [hid] at this
  exact this

lemma breakGroupCore_children (g : ℕ) (s2 : Workspace) :
    ∀ c ∈ (s2.objData g).children, ((breakGroupCore g s2).objData c).group = none := by
  intro c hc
  unfold breakGroupCore
  rw [removeFromString_objData, removeFromObjects_objData, removeFromStructures_objData]
  apply clearChildrenPointers_group_none
  have hred : Reduces (breakAllDescriptions g (severRightBond g (severLeftBond g s2))) s2 :=
    ((breakAllDescriptions_reduces g _).trans
      (severRightBond_reduces g _)).trans (severLeftBond_reduces g s2)
  rw [(hred.objData g).children_eq]
  exact hc

lemma breakGroupCore_descs_nil (g : ℕ) (s2 : Workspace)
    (hdesc : ∀ d ∈ (s2.objData g).descriptions, s2.descOwner d = g) :
    ((breakGroupCore g s2).objData g).descriptions = [] := by
  unfold breakGroupCore
  rw [removeFromString_objData, removeFromObjects_objData, removeFromStructures_objData]
  set s4 := severRightBond g (severLeftBond g s2) with hs4
  have hred4 : Reduces s4 s2 :=
    (severRightBond_reduces g _).trans (severLeftBond_reduces g s2)
  have hempty : ((breakAllDescriptions g s4).objData g).descriptions = [] := by
    apply breakAllDescriptions_empty
    intro d hd
    rw [hred4.descOwner]
    exact hdesc d ((hred4.objData g).descs.subset hd)
  exact (clearChildrenPointers_reduces g _).descs_nil g hempty

lemma breakGroupCore_bonds_none (g : ℕ) (s2 : Workspace)
    (hlb : ∀ b, (s2.objData g).leftBond = some b → (s2.bondData b).2 = g)
    (hrb : ∀ b, (s2.objData g).rightBond = some b → (s2.bondData b).1 = g) :
    ((breakGroupCore g s2).objData g).leftBond = none ∧
    ((breakGroupCore g s2).objData g).rightBond = none := by
  unfold breakGroupCore
  rw [removeFromString_objData, removeFromObjects_objData, removeFromStructures_objData]
  set s3 := severLeftBond g s2 with hs3
  have hl3 : (s3.objData g).leftBond = none := severLeftBond_left_none g s2 hlb
  have hred3 : Reduces s3 s2 := severLeftBond_reduces g s2
  set s4 := severRightBond g s3 with hs4
  have hr4 : (s4.objData g).rightBond = none := by
    apply severRightBond_right_none
    intro b hb
    rcases (hred3.objData g).right_or with he | he
    · rw [hred3.bondData]
      exact hrb b (by rw [← he]; exact hb)
    · rw [he] at hb
      cases hb
  have hl4 : (s4.objData g).leftBond = none :=
    (severRightBond_reduces g s3).left_none g hl3
  have hredLater : Reduces (clearChildrenPointers g (breakAllDescriptions g s4)) s4 :=
    (clearChildrenPointers_reduces g _).trans (breakAllDescriptions_reduces g _)
  exact ⟨hredLater.left_none g hl4, hredLater.right_none g hr4⟩

lemma breakGroup_eq_core (fuel p : ℕ) (s : Workspace) :
    ∃ sx, breakGroup fuel p s = breakGroupCore p sx ∧ Reduces sx s := by
  cases fuel with
  | zero =>
    exact ⟨breakCorrStage p s, rfl, breakCorrStage_reduces p s⟩
  | succ F =>
    refine ⟨match ((breakCorrStage p s).objData p).group with
            | some pg => breakGroup F pg (breakCorrStage p s)
            | none => breakCorrStage p s, rfl, ?_⟩
    have h2 : ∀ z : Option ℕ,
        Reduces (match z with
                 | some pg => breakGroup F pg (breakCorrStage p s)
                 | none => breakCorrStage p s) (breakCorrStage p s) := by
      intro z
      cases z with
      | some pg => exact breakGroup_reduces F pg (breakCorrStage p s)
      | none => exact Reduces.refl _
    exact (h2 _).trans (breakCorrStage_reduces p s)

lemma breakGroup_children (fuel p : ℕ) (s : Workspace) :
    ∀ c ∈ (s.objData p).children, ((breakGroup fuel p s).objData c).group = none := by
  intro c hc
  obtain ⟨sx, heq, hred⟩ := breakGroup_eq_core fuel p s
  rw [heq]
  apply breakGroupCore_children
  rw [(hred.objData p).children_eq]
  exact hc

lemma breakGroup_self_notMem (fuel p : ℕ) (s : Workspace)
    (h1 : s.structures.count p ≤ 1) (h2 : s.objects.count p ≤ 1)
    (h3 : (s.stringObjects ((s.objData p).stringId)).count p ≤ 1) :
    p ∉ (breakGroup fuel p s).structures ∧
    p ∉ (breakGroup fuel p s).objects ∧
    p ∉ (breakGroup fuel p s).stringObjects ((s.objData p).stringId) := by
  obtain ⟨sx, heq, hred⟩ := breakGroup_eq_core fuel p s
  rw [heq]
  have hid : (sx.objData p).stringId = (s.objData p).stringId :=
    (hred.objData p).stringId_eq
  refine ⟨breakGroupCore_structures_notMem p sx
            (le_trans (hred.structures.count_le p) h1),
          breakGroupCore_objects_notMem p sx
            (le_trans (hred.objects.count_le p) h2), ?_⟩
  have := breakGroupCore_string_notMem p sx (by
    rw [hid]
    exact le_trans ((hred.stringObjects _).count_le p) h3)
  rw [hid] at this
  exact this

end Copycat

namespace Copycat

lemma setObj_group_eq (s : Workspace) (i : ℕ) (f : ObjData → ObjData)
    (hf : ∀ o, (f o).group = o.group) (x : ℕ) :
    ((s.setObj i f).objData x).group = (s.objData x).group := by
  by_cases hx : x = i
  · subst hx
    rw [setObj_objData_self]
    exact hf _
  · rw [setObj_objData_ne _ _ _ _ hx]

lemma breakCorrespondence_group_eq (c : ℕ) (s : Workspace) (x : ℕ) :
    ((breakCorrespondence c s).objData x).group = (s.objData x).group := by
  unfold breakCorrespondence
  simp only []
  refine Eq.trans (setObj_group_eq _ _ _ ?_ x)
    (Eq.trans (setObj_group_eq _ _ _ ?_ x) rfl)
  · intro o; rfl
  · intro o; rfl

lemma breakCorrStage_group_eq (g : ℕ) (s : Workspace) (x : ℕ) :
    ((breakCorrStage g s).objData x).group = (s.objData x).group := by
  unfold breakCorrStage
  cases (s.objData g).correspondence with
  | some c => exact breakCorrespondence_group_eq c s x
  | none => rfl

/-- C8: breaking a group leaves no partial state behind — the correspondence
is broken and the containing group fully broken first, the left and right
bonds are severed, every description is removed, every former child's
`group` pointer is cleared, and the group disappears from the workspace
structure list, the workspace object list and its owning string's object
list. -/
theorem break_group_cascade (fuel g : ℕ) (s : Workspace)
    (hfuel : 1 ≤ fuel)
    (hsc : s.structures.count g ≤ 1)
    (hoc : s.objects.count g ≤ 1)
    (htc : (s.stringObjects ((s.objData g).stringId)).count g ≤ 1)
    (hcorr : ∀ c, (s.objData g).correspondence = some c →
      (s.corrData c).1 = g ∨ (s.corrData c).2 = g)
    (hlb : ∀ b, (s.objData g).leftBond = some b → (s.bondData b).2 = g)
    (hrb : ∀ b, (s.objData g).rightBond = some b → (s.bondData b).1 = g)
    (hdesc : ∀ d ∈ (s.objData g).descriptions, s.descOwner d = g)
    (hpar : ∀ p, (s.objData g).group = some p → g ∈ (s.objData p).children)
    (hpc : ∀ p, (s.objData g).group = some p →
      s.structures.count p ≤ 1 ∧ s.objects.count p ≤ 1 ∧
      (s.stringObjects ((s.objData p).stringId)).count p ≤ 1) :
    g ∉ (breakGroup fuel g s).structures ∧
    g ∉ (breakGroup fuel g s).objects ∧
    g ∉ (breakGroup fuel g s).stringObjects ((s.objData g).stringId) ∧
    (∀ c ∈ (s.objData g).children, ((breakGroup fuel g s).objData c).group = none) ∧
    ((breakGroup fuel g s).objData g).descriptions = [] ∧
    ((breakGroup fuel g s).objData g).leftBond = none ∧
    ((breakGroup fuel g s).objData g).rightBond = none ∧
    ((breakGroup fuel g s).objData g).correspondence = none ∧
    ((breakGroup fuel g s).objData g).group = none ∧
    (∀ p, (s.objData g).group = some p →
      p ∉ (breakGroup fuel g s).structures ∧
      p ∉ (breakGroup fuel g s).objects ∧
      p ∉ (breakGroup fuel g s).stringObjects ((s.objData p).stringId)) := by
  cases fuel with
  | zero => omega
  | succ F =>
  set s1 := breakCorrStage g s with hs1
  have hred1 : Reduces s1 s := breakCorrStage_reduces g s
  have hcorr1 : (s1.objData g).correspondence = none := breakCorrStage_corr_none g s hcorr
  have hgroup1 : ∀ x, (s1.objData x).group = (s.objData x).group :=
    fun x => breakCorrStage_group_eq g s x
  cases hg : (s1.objData g).group with
  | none =>
    have heq : breakGroup (F + 1) g s = breakGroupCore g s1 := by
      show breakGroupCore g (match (s1.objData g).group with
        | some pg => breakGroup F pg s1
        | none => s1) = breakGroupCore g s1
      rw [hg]
    rw [heq]
    have hcore : Reduces (breakGroupCore g s1) s1 := breakGroupCore_reduces g s1
    have hgs : (s.objData g).group = none := by rw [← hgroup1 g]; exact hg
    refine ⟨breakGroupCore_structures_notMem g s1
              (le_trans (hred1.structures.count_le g) hsc),
            breakGroupCore_objects_notMem g s1
              (le_trans (hred1.objects.count_le g) hoc), ?_, ?_, ?_, ?_, ?_, ?_, ?_, ?_⟩
    · have hid : (s1.objData g).stringId = (s.objData g).stringId :=
        (hred1.objData g).stringId_eq
      have := breakGroupCore_string_notMem g s1 (by
        rw [hid]
        exact le_trans ((hred1.stringObjects _).count_le g) htc)
      rw [hid] at this
      exact this
    · intro c hc
      apply breakGroupCore_children
      rw [(hred1.objData g).children_eq]
      exact hc
    · apply breakGroupCore_descs_nil
      intro d hd
      rw [hred1.descOwner]
      exact hdesc d ((hred1.objData g).descs.subset hd)
    · refine (breakGroupCore_bonds_none g s1 ?_ ?_).1
      · intro b hb
        rcases (hred1.objData g).left_or with he | he
        · rw [hred1.bondData]
          exact hlb b (by rw [← he]; exact hb)
        · rw [he] at hb; cases hb
      · intro b hb
        rcases (hred1.objData g).right_or with he | he
        · rw [hred1.bondData]
          exact hrb b (by rw [← he]; exact hb)
        · rw [he] at hb; cases hb
    · refine (breakGroupCore_bonds_none g s1 ?_ ?_).2
      · intro b hb
        rcases (hred1.objData g).left_or with he | he
        · rw [hred1.bondData]
          exact hlb b (by rw [← he]; exact hb)
        · rw [he] at hb; cases hb
      · intro b hb
        rcases (hred1.objData g).right_or with he | he
        · rw [hred1.bondData]
          exact hrb b (by rw [← he]; exact hb)
        · rw [he] at hb; cases hb
    · exact hcore.corr_none g hcorr1
    · exact hcore.group_none g hg
    · intro p hp
      rw [hgs] at hp
      cases hp
  | some pg =>
    have heq : breakGroup (F + 1) g s = breakGroupCore g (breakGroup F pg s1) := by
      show breakGroupCore g (match (s1.objData g).group with
        | some pg => breakGroup F pg s1
        | none => s1) = breakGroupCore g (breakGroup F pg s1)
      rw [hg]
    rw [heq]
    have hgs : (s.objData g).group = some pg := by rw [← hgroup1 g]; exact hg
    set s2 := breakGroup F pg s1 with hs2
    have hred2 : Reduces s2 s1 := breakGroup_reduces F pg s1
    have hred2s : Reduces s2 s := hred2.trans hred1
    have hcore : Reduces (breakGroupCore g s2) s2 := breakGroupCore_reduces g s2
    refine ⟨breakGroupCore_structures_notMem g s2
              (le_trans (hred2s.structures.count_le g) hsc),
            breakGroupCore_objects_notMem g s2
              (le_trans (hred2s.objects.count_le g) hoc), ?_, ?_, ?_, ?_, ?_, ?_, ?_, ?_⟩
    · have hid : (s2.objData g).stringId = (s.objData g).stringId :=
        (hred2s.objData g).stringId_eq
      have := breakGroupCore_string_notMem g s2 (by
        rw [hid]
        exact le_trans ((hred2s.stringObjects _).count_le g) htc)
      rw [hid] at this
      exact this
    · intro c hc
      apply breakGroupCore_children
      rw [(hred2s.objData g).children_eq]
      exact hc
    · apply breakGroupCore_descs_nil
      intro d hd
      rw [hred2s.descOwner]
      exact hdesc d ((hred2s.objData g).descs.subset hd)
    · refine (breakGroupCore_bonds_none g s2 ?_ ?_).1
      · intro b hb
        rcases (hred2s.objData g).left_or with he | he
        · rw [hred2s.bondData]
          exact hlb b (by rw [← he]; exact hb)
        · rw [he] at hb; cases hb
      · intro b hb
        rcases (hred2s.objData g).right_or with he | he
        · rw [hred2s.bondData]
          exact hrb b (by rw [← he]; exact hb)
        · rw [he] at hb; cases hb
    · refine (breakGroupCore_bonds_none g s2 ?_ ?_).2
      · intro b hb
        rcases (hred2s.objData g).left_or with he | he
        · rw [hred2s.bondData]
          exact hlb b (by rw [← he]; exact hb)
        · rw [he] at hb; cases hb
      · intro b hb
        rcases (hred2s.objData g).right_or with he | he
        · rw [hred2s.bondData]
          exact hrb b (by rw [← he]; exact hb)
        · rw [he] at hb; cases hb
    · exact hcore.corr_none g (hred2.corr_none g hcorr1)
    · have hmem : g ∈ (s1.objData pg).children := by
        rw [(hred1.objData pg).children_eq]
        exact hpar pg hgs
      exact hcore.group_none g (breakGroup_children F pg s1 g hmem)
    · intro p hp
      have hppg : p = pg := by
        rw [hgs] at hp
        exact (Option.some.injEq _ _).mp hp.symm
      subst hppg
      obtain ⟨k1, k2, k3⟩ := hpc p hgs
      have hid1 : (s1.objData p).stringId = (s.objData p).stringId :=
        (hred1.objData p).stringId_eq
      obtain ⟨m1, m2, m3⟩ := breakGroup_self_notMem F p s1
        (le_trans (hred1.structures.count_le p) k1)
        (le_trans (hred1.objects.count_le p) k2)
        (by rw [hid1]; exact le_trans ((hred1.stringObjects _).count_le p) k3)
      rw [hid1] at m3
      exact ⟨hcore.notMem_structures m1, hcore.notMem_objects m2,
             hcore.notMem_stringObjects m3⟩

end Copycat

namespace Copycat

/-- Witness for C8: the concrete workspace `wsEx`, breaking group 1 (which
has a correspondence, two bonds, two descriptions, two children and a
containing group 2). -/
theorem break_group_cascade_witness :
    1 ≤ 2 ∧
    (1 ∉ (breakGroup 2 1 wsEx).structures ∧
     1 ∉ (breakGroup 2 1 wsEx).objects ∧
     1 ∉ (breakGroup 2 1 wsEx).stringObjects ((wsEx.objData 1).stringId) ∧
     (∀ c ∈ (wsEx.objData 1).children, ((breakGroup 2 1 wsEx).objData c).group = none) ∧
     ((breakGroup 2 1 wsEx).objData 1).descriptions = [] ∧
     ((breakGroup 2 1 wsEx).objData 1).leftBond = none ∧
     ((breakGroup 2 1 wsEx).objData 1).rightBond = none ∧
     ((breakGroup 2 1 wsEx).objData 1).correspondence = none ∧
     ((breakGroup 2 1 wsEx).objData 1).group = none ∧
     (∀ p, (wsEx.objData 1).group = some p →
       p ∉ (breakGroup 2 1 wsEx).structures ∧
       p ∉ (breakGroup 2 1 wsEx).objects ∧
       p ∉ (breakGroup 2 1 wsEx).stringObjects ((wsEx.objData p).stringId))) := by
  refine ⟨by decide, break_group_cascade 2 1 wsEx (by decide) (by decide) (by decide)
    (by decide) ?_ ?_ ?_ ?_ ?_ ?_⟩
  · intro c hc
    simp [wsEx, objDataDefault] at hc
    subst hc
    decide
  · intro b hb
    simp [wsEx, objDataDefault] at hb
    subst hb
    decide
  · intro b hb
    simp [wsEx, objDataDefault] at hb
    subst hb
    decide
  · intro d hd
    simp [wsEx, objDataDefault] at hd
    rcases hd with rfl | rfl <;> decide
  · intro p hp
    simp [wsEx, objDataDefault] at hp
    subst hp
    decide
  · intro p hp
    simp [wsEx, objDataDefault] at hp
    subst hp
    exact ⟨by decide, by decide, by decide⟩

end Copycat
